import Mathlib

/-!
Shallow embedding of the StartupCouncilAI debate orchestration engine
(`src/lib/agents/types.ts`, orchestrator part: `CouncilOrchestrator`) and of
its API caller (`src/app/api/council/route.ts`).

External services (the Anthropic completion client and the Tavily search
client) are modelled as an `Oracle`: a deterministic assignment of reply
texts / streamed chunks / thrown errors to each call site.  Timestamps
(`Date.now()`) and the `data` payload of events are elided: no verified
property mentions them.
-/

namespace Council

/-- The five advisor identifiers of `ADVISOR_NAMES` in `personas.ts`. -/
inductive AdvisorName
  | naval | elon | larry | alex | pavel
deriving DecidableEq, Repr

/-- The ordered advisor list `ADVISOR_NAMES = ['naval','elon','larry','alex','pavel']`. -/
def ADVISOR_NAMES : List AdvisorName :=
  [.naval, .elon, .larry, .alex, .pavel]

/-- The string identifier of an advisor (the keys of `PERSONAS`). -/
def AdvisorName.idString : AdvisorName → String
  | .naval => "naval"
  | .elon => "elon"
  | .larry => "larry"
  | .alex => "alex"
  | .pavel => "pavel"

/-- The display name `PERSONAS[a].name` from `personas.ts`. -/
def AdvisorName.displayName : AdvisorName → String
  | .naval => "Naval Ravikant"
  | .elon => "Elon Musk"
  | .larry => "Larry Ellison"
  | .alex => "Alex Hormozi"
  | .pavel => "Pavel Durov"

/-- One research finding, interface `ResearchResult` of `types.ts`. -/
structure ResearchResult where
  title : String
  url : String
  snippet : String
deriving DecidableEq, Repr

/-- A transcript message (interface `Message`); the timestamp and optional
round tag are elided. -/
structure Message where
  role : String
  content : String
deriving DecidableEq, Repr

/-- The mutable debate aggregate, interface `DebateState` of `types.ts`.
`agentResponses` (a JS record keyed by advisor id) is modelled as a total
function defaulting to the empty list, matching the record the orchestrator
initialises with one empty array per selected advisor. -/
structure DebateState where
  messages : List Message
  currentRound : Nat
  maxRounds : Nat
  consensusReached : Bool
  needsClarification : Bool
  clarificationQuestion : Option String
  agentResponses : AdvisorName → List String
  finalAnswer : Option String
  researchResults : Option (List ResearchResult)

/-- The discriminants of interface `StreamEvent` in `types.ts`. -/
inductive EventType
  | agent_start | agent_response | agent_complete | moderator_analysis
  | consensus_check | final_answer | error | clarification_needed
  | research_start | research_complete | research_results
  | cost_estimate | cost_actual | system | status
deriving DecidableEq, Repr

/-- A stream event (interface `StreamEvent`); the timestamp and the free-form
`data` payload are elided. -/
structure StreamEvent where
  type : EventType
  agent : Option AdvisorName := none
  content : Option String := none
deriving DecidableEq, Repr

/-- The verdict of the consensus analyzer, interface `ConsensusAnalysis`. -/
structure ConsensusAnalysis where
  consensusReached : Bool
  agreementLevel : ℚ
  agreements : List String
  disagreements : List String
  majorityView : Option String
  minorityViews : Option (List String)
deriving DecidableEq, Repr

/-! ### String scanning primitives

These model the JavaScript regular-expression extractions used by
`analyzeConsensus`.  Every pattern in the source is of one of three simple
shapes, so a literal-scanner suffices:
 - `LABEL:\s*(YES|NO)` (case-insensitive) and `LABEL:\s*(\d+)` scan for the
   first position at which the whole pattern matches;
 - `LABEL:([\s\S]*?)(?=STOP:|$)` captures, after the first occurrence of
   `LABEL:`, the shortest prefix ending at the next `STOP:` or at the end.
-/

/-- Whitespace as matched by the regex class `\s` on the characters that can
occur in our development (space, tab, newline, carriage return). -/
def isJsSpace (c : Char) : Bool :=
  c = ' ' || c = '\t' || c = '\n' || c = '\r'

/-- Case-insensitive prefix test (both sides lowered, as a `/i` regex does). -/
def ciPrefix (pat : List Char) (cs : List Char) : Bool :=
  (pat.map Char.toLower).isPrefixOf (cs.map Char.toLower)

/-- The suffix just after the first occurrence of `needle`, if any
(the tail a regex continues from after matching the literal `needle`). -/
def afterLit (needle : List Char) : List Char → Option (List Char)
  | [] => if needle.isEmpty then some [] else none
  | c :: t =>
    if needle.isPrefixOf (c :: t) then some ((c :: t).drop needle.length)
    else afterLit needle t

/-- The prefix of `cs` before the first occurrence of `stop`, or all of `cs`
if `stop` does not occur: the capture of a lazy `([\s\S]*?)` bounded by the
lookahead `(?=stop|$)`. -/
def uptoLit (stop : List Char) : List Char → List Char
  | [] => []
  | c :: t =>
    if stop.isPrefixOf (c :: t) then []
    else c :: uptoLit stop t

/-- First position (left to right) at which the position-matcher `f`
succeeds: regex scanning for patterns anchored nowhere. -/
def scanFirst {α : Type} (f : List Char → Option α) : List Char → Option α
  | [] => f []
  | c :: t =>
    match f (c :: t) with
    | some x => some x
    | none => scanFirst f t

/-- Decimal value of a digit run, as `parseInt` computes it. -/
def digitsToNat (ds : List Char) : Nat :=
  ds.foldl (fun n c => n * 10 + (c.toNat - 48)) 0

/-- Position matcher for `/CONSENSUS:\s*(YES|NO)/i`: returns `some true` when
the alternative `YES` matched, `some false` for `NO`. -/
def matchConsensusAt (cs : List Char) : Option Bool :=
  if ciPrefix "CONSENSUS:".toList cs then
    let rest := (cs.drop 10).dropWhile isJsSpace
    if ciPrefix "YES".toList rest then some true
    else if ciPrefix "NO".toList rest then some false
    else none
  else none

/-- Position matcher for `/AGREEMENT_LEVEL:\s*(\d+)/` (case-sensitive):
returns the greedily captured digit run's value. -/
def matchLevelAt (cs : List Char) : Option Nat :=
  if "AGREEMENT_LEVEL:".toList.isPrefixOf cs then
    let rest := (cs.drop 16).dropWhile isJsSpace
    let ds := rest.takeWhile Char.isDigit
    if ds.isEmpty then none else some (digitsToNat ds)
  else none

/-- Capture of `startLit:([\s\S]*?)(?=stopLit|$)`. -/
def captureBetween (startLit stopLit : String) (content : String) : Option String :=
  (afterLit startLit.toList content.toList).map fun rest =>
    String.mk (uptoLit stopLit.toList rest)

/-- Capture of `startLit:([\s\S]*?)$`. -/
def captureAfter (startLit : String) (content : String) : Option String :=
  (afterLit startLit.toList content.toList).map String.mk

/-- The `parseList` helper inside `analyzeConsensus`: keep the lines whose
trimmed form starts with `-`, and strip the dash. -/
def parseList (text : String) : List String :=
  ((text.splitOn "\n").filter (fun line => line.trim.startsWith "-")).map
    (fun line => (line.trim.drop 1).trim)

/-- The parsing tail of `analyzeConsensus` (types.ts lines 443-467): each
labeled field of the moderator's reply is extracted independently and absent
or malformed fields fall back to their zero-values. -/
def parseConsensusReply (content : String) : ConsensusAnalysis :=
  let consensusMatch := scanFirst matchConsensusAt content.toList
  let agreementLevelMatch := scanFirst matchLevelAt content.toList
  let agreementsMatch := captureBetween "AGREEMENTS:" "DISAGREEMENTS:" content
  let disagreementsMatch := captureBetween "DISAGREEMENTS:" "MAJORITY_VIEW:" content
  let majorityViewMatch := captureBetween "MAJORITY_VIEW:" "MINORITY_VIEWS:" content
  let minorityViewsMatch := captureAfter "MINORITY_VIEWS:" content
  { consensusReached := consensusMatch.getD false
    agreementLevel := ((agreementLevelMatch.getD 0 : Nat) : ℚ) / 100
    agreements := (agreementsMatch.map parseList).getD []
    disagreements := (disagreementsMatch.map parseList).getD []
    majorityView := majorityViewMatch.map String.trim
    minorityViews := minorityViewsMatch.map fun s => [s.trim] }

/-! ### The external-service oracle -/

/-- Outcome of one Anthropic completion call made for an advisor turn:
either the call throws (after possibly having streamed some chunks), or it
completes with a list of streamed text chunks whose concatenation is the
full response. -/
inductive CallOutcome
  | failure (msg : String) (chunks : List String)
  | success (chunks : List String)
deriving DecidableEq, Repr

/-- Deterministic model of the external collaborators: the completion reply
for each advisor call (keyed by the round number the call is made in), the
moderator's consensus reply (keyed by round), the final-synthesis reply, and
the Tavily search outcome (`none` models a thrown search error). -/
structure Oracle where
  advisorCall : Nat → AdvisorName → CallOutcome
  moderatorReply : Nat → String
  finalReply : String
  searchOutcome : Option (List ResearchResult)

/-- Whether a call outcome counts as a successful advisor turn: the call
returned and its full text is non-empty (the JS truthiness test
`if (result.response)` in `runDebateRound`). -/
def isFullSuccess : CallOutcome → Bool
  | .failure _ _ => false
  | .success chunks => !(String.join chunks == "")

/-- The full response text carried by a successful outcome. -/
def fullResponse : CallOutcome → String
  | .failure _ _ => ""
  | .success chunks => String.join chunks

/-! ### Prompt construction (`getAdvisorResponse`, `buildAdvisorContext`) -/

/-- The user's question: content of the first `user` message
(`state.messages.find((m) => m.role === 'user')?.content || ''`). -/
def userQuestion (st : DebateState) : String :=
  ((st.messages.find? fun m => m.role == "user").map Message.content).getD ""

/-- Rendering of one research result as a numbered citation. -/
def renderResult (i : Nat) (r : ResearchResult) : String :=
  "[" ++ toString (i + 1) ++ "] " ++ r.title ++ "\n   Source: " ++ r.url ++ "\n   " ++ r.snippet

/-- The `researchContext` block of `getAdvisorResponse` (types.ts
lines 307-312): numbered citations plus the citing instruction, or the empty
string when no research results are present. -/
def researchContext (st : DebateState) : String :=
  match st.researchResults with
  | some rs =>
    if rs.length > 0 then
      "\n\n**RESEARCH FINDINGS** (cite these sources in your response):\n" ++
      String.intercalate "\n\n" (rs.enum.map fun p => renderResult p.1 p.2) ++
      "\n\nIMPORTANT: When using research findings, cite them like \"[1]\" or \"according to [2]\""
    else ""
  | none => ""

/-- `buildAdvisorContext` (types.ts lines 365-378): for every *other*
selected advisor that has responded, append its display name and its latest
response. -/
def buildAdvisorContext (sel : List AdvisorName) (st : DebateState) (currentAdvisor : AdvisorName) : String :=
  (sel.filter fun name => name ≠ currentAdvisor).foldl
    (fun context advisor =>
      let responses := st.agentResponses advisor
      if responses.length > 0 then
        context ++ "**" ++ advisor.displayName ++ "**: " ++ responses.getLastD "" ++ "\n\n"
      else context)
    ""

/-- The single user message `getAdvisorResponse` sends to the completion
client (types.ts lines 315-327): question, research context, and — unless
`state.currentRound === 0` — the other advisors' latest responses. -/
def advisorPrompt (sel : List AdvisorName) (st : DebateState) (advisorName : AdvisorName) : String :=
  let rc := researchContext st
  "You are participating in an AI council debate. The user has asked:\n\n\"" ++
    userQuestion st ++ "\"" ++ rc ++ "\n\n" ++
  (if st.currentRound = 0 then
    "This is Round 1. Provide your initial perspective on this question based on your expertise and thinking framework." ++
    (if rc ≠ "" then " Use the research findings above and cite sources with [1], [2], etc." else "")
  else
    "This is Round " ++ toString (st.currentRound + 1) ++
    ". Here\x27s what other advisors have said:\n\n" ++
    buildAdvisorContext sel st advisorName ++
    "\n\nProvide your response, addressing points of agreement or disagreement with other advisors if relevant." ++
    (if rc ≠ "" then " Continue citing research sources with [1], [2], etc." else ""))

/-! ### Events -/

/-- The `status` event announcing an advisor turn. -/
def thinkingEvent (a : AdvisorName) : StreamEvent :=
  ⟨.status, none, some (a.displayName ++ " is thinking...")⟩

/-- The `agent_start` event of an advisor turn. -/
def agentStartEvent (a : AdvisorName) : StreamEvent :=
  ⟨.agent_start, some a, none⟩

/-- One streamed `agent_response` chunk event. -/
def agentResponseEvent (a : AdvisorName) (chunk : String) : StreamEvent :=
  ⟨.agent_response, some a, some chunk⟩

/-- The `agent_complete` event of an advisor turn. -/
def agentCompleteEvent (a : AdvisorName) : StreamEvent :=
  ⟨.agent_complete, some a, none⟩

/-- The `error` event emitted when an advisor call throws (types.ts
lines 589-593); note it carries no `agent` field. -/
def advisorErrorEvent (a : AdvisorName) (msg : String) : StreamEvent :=
  ⟨.error, none, some (a.idString ++ " failed to respond: " ++ msg)⟩

/-- A free-text `status` event. -/
def statusEvent (s : String) : StreamEvent := ⟨.status, none, some s⟩

/-- A `moderator_analysis` narration event. -/
def moderatorEvent (s : String) : StreamEvent := ⟨.moderator_analysis, none, some s⟩

/-- The `consensus_check` event (types.ts lines 708-712). -/
def consensusCheckEvent : StreamEvent := ⟨.consensus_check, none, some "Analyzing consensus..."⟩

/-- The `final_answer` event. -/
def finalAnswerEvent (fa : String) : StreamEvent := ⟨.final_answer, none, some fa⟩

/-! ### Round executor (`runDebateRound`, types.ts lines 530-603) -/

/-- Append a response to one advisor's response list
(`newState.agentResponses[advisorName].push(result.response)`). -/
def pushResponse (st : DebateState) (a : AdvisorName) (r : String) : DebateState :=
  { st with agentResponses := fun x =>
      if x = a then st.agentResponses x ++ [r] else st.agentResponses x }

/-- Result of one advisor turn: the updated state, the contribution to
`successfulResponses`, the events emitted during the turn, and the prompt
that was sent (recorded as an observation for verification). -/
structure TurnResult where
  state : DebateState
  succ : Nat
  events : List StreamEvent
  prompt : String

/-- One iteration of the advisor loop inside `runDebateRound`: emit the
status and `agent_start` events, call the completion client, stream chunks,
then either append the non-empty response (counting it as a success) and emit
`agent_complete`, or — when the call threw — emit an `error` event and leave
the state untouched. -/
def advisorTurn (o : Oracle) (sel : List AdvisorName) (a : AdvisorName) (st : DebateState) : TurnResult :=
  let p := advisorPrompt sel st a
  match o.advisorCall st.currentRound a with
  | .failure msg chunks =>
    { state := st, succ := 0,
      events := thinkingEvent a :: agentStartEvent a ::
        (chunks.map (agentResponseEvent a) ++ [advisorErrorEvent a msg]),
      prompt := p }
  | .success chunks =>
    let full := String.join chunks
    let evs := thinkingEvent a :: agentStartEvent a ::
      (chunks.map (agentResponseEvent a) ++ [agentCompleteEvent a])
    if full == "" then { state := st, succ := 0, events := evs, prompt := p }
    else { state := pushResponse st a full, succ := 1, events := evs, prompt := p }

/-- Accumulated result of a round: final state, number of successful turns,
emitted events, and the prompts sent (in turn order). -/
structure RoundAcc where
  state : DebateState
  succ : Nat
  events : List StreamEvent
  prompts : List (AdvisorName × String)

/-- The sequential advisor loop of `runDebateRound`: each turn reads the
state updated by the previous turns of the same round. -/
def runRoundAux (o : Oracle) (allSel : List AdvisorName) : List AdvisorName → DebateState → RoundAcc
  | [], st => ⟨st, 0, [], []⟩
  | a :: rest, st =>
    let t := advisorTurn o allSel a st
    let r := runRoundAux o allSel rest t.state
    ⟨r.state, t.succ + r.succ, t.events ++ r.events, (a, t.prompt) :: r.prompts⟩

/-- The message of the fatal insufficient-responses error. -/
def insufficientMsg (n : Nat) : String :=
  "Insufficient advisor responses: only " ++ toString n ++ " succeeded"

/-- `runDebateRound`: increment `currentRound` *before* the advisor turns
(so every turn in round `R` sees `currentRound = R`), run the advisors
sequentially, and throw when fewer than 2 turns succeeded. -/
def runDebateRound (o : Oracle) (sel : List AdvisorName) (st : DebateState) :
    RoundAcc × Except String DebateState :=
  let st0 := { st with currentRound := st.currentRound + 1 }
  let r := runRoundAux o sel sel st0
  (r, if r.succ < 2 then .error (insufficientMsg r.succ) else .ok r.state)

/-! ### Consensus analyzer (`analyzeConsensus`, types.ts lines 383-468) -/

/-- The default verdict returned without an external call when fewer than 3
advisors have a non-empty latest response. -/
def defaultVerdict : ConsensusAnalysis :=
  { consensusReached := false, agreementLevel := 0,
    agreements := [], disagreements := [],
    majorityView := none, minorityViews := none }

/-- The latest per-advisor responses used by `analyzeConsensus` and
`generateFinalAnswer`: each selected advisor's last response (empty string
when it has none), with empty responses filtered out. -/
def latestResponses (sel : List AdvisorName) (st : DebateState) : List (String × String) :=
  (sel.map fun name => (name.displayName, (st.agentResponses name).getLastD "")).filter
    fun r => r.2.length > 0

/-- `analyzeConsensus`: short-circuit to the default verdict when fewer than
3 non-empty latest responses exist; otherwise make one moderator call and
parse its reply.  The boolean records whether the external call was made. -/
def analyzeConsensus (o : Oracle) (sel : List AdvisorName) (st : DebateState) :
    ConsensusAnalysis × Bool :=
  if (latestResponses sel st).length < 3 then (defaultVerdict, false)
  else (parseConsensusReply (o.moderatorReply st.currentRound), true)

/-- `generateFinalAnswer`: one completion call whose reply is the final
answer; the prompt internals are irrelevant to the verified properties, so
only the call itself is modelled. -/
def generateFinalAnswer (o : Oracle) (_st : DebateState) (_c : ConsensusAnalysis) : String :=
  o.finalReply

/-! ### Debate orchestrator (`runCouncilDebate`, types.ts lines 608-762) -/

/-- The three debate modes. -/
inductive DebateMode
  | quick | standard | deep
deriving DecidableEq, Repr

/-- The `modeMap` of the orchestrator constructor (types.ts lines 109-113):
quick 1, standard 2, deep 3. -/
def modeRounds : DebateMode → Nat
  | .quick => 1
  | .standard => 2
  | .deep => 3

/-- Orchestrator configuration: the mode, the ordered selected advisors,
the user's research setting, and whether a Tavily client is configured. -/
structure Config where
  mode : DebateMode
  selectedAdvisors : List AdvisorName
  userEnabledResearch : Bool
  tavilyConfigured : Bool

/-- The keyword list of `shouldActivateResearch` (types.ts lines 137-158). -/
def researchKeywords : List String :=
  ["research", "search", "look online", "look up", "find online", "check online",
   "google", "what does the data say", "latest data", "current data", "recent data",
   "find out", "look it up", "check the", "verify", "fact check", "statistics",
   "stats on", "numbers on", "data on"]

/-- Case-sensitive substring test (JS `String.prototype.includes`). -/
def strContains (s needle : String) : Bool :=
  (afterLit needle.toList s.toList).isSome

/-- `shouldActivateResearch`: no Tavily client means no research; an explicit
user setting always researches; otherwise scan the lowercased question for
the keywords. -/
def shouldActivateResearch (cfg : Config) (question : String) : Bool :=
  if !cfg.tavilyConfigured then false
  else if cfg.userEnabledResearch then true
  else researchKeywords.any fun keyword => strContains question.toLower keyword

/-- `performResearch` (types.ts lines 167-215): emit the research lifecycle
events and return the search results, or the empty list on a thrown search
error (non-fatal).  The preliminary guards mirror the source even though the
first is unreachable from `runCouncilDebate`. -/
def performResearch (o : Oracle) (cfg : Config) (query : String) :
    List ResearchResult × List StreamEvent :=
  if cfg.userEnabledResearch && !cfg.tavilyConfigured then
    ([], [⟨.system, none, some "Research requested but TAVILY_API_KEY not configured. Get your free API key at https://tavily.com"⟩])
  else if !cfg.userEnabledResearch || !cfg.tavilyConfigured then ([], [])
  else
    match o.searchOutcome with
    | some results =>
      (results, [⟨.research_start, none, some ("Searching for: " ++ query)⟩,
                 ⟨.research_complete, none, none⟩])
    | none =>
      ([], [⟨.research_start, none, some ("Searching for: " ++ query)⟩,
            ⟨.research_complete, none, none⟩])

/-- `createInitialState` (types.ts lines 220-241). -/
def createInitialState (cfg : Config) (userQuestion : String) : DebateState :=
  { messages := [⟨"user", userQuestion⟩]
    currentRound := 0
    maxRounds := modeRounds cfg.mode
    consensusReached := false
    needsClarification := false
    clarificationQuestion := none
    agentResponses := fun _ => []
    finalAnswer := none
    researchResults := none }

/-- Observable result of `runCouncilDebate`: the emitted event stream, the
round numbers of the executed rounds, the round numbers at which the in-loop
consensus gate ran, and the outcome (final state and answer, or the
propagated fatal error message). -/
structure LoopResult where
  events : List StreamEvent
  rounds : List Nat
  consensusChecks : List Nat
  outcome : Except String (DebateState × String)

/-- The round loop of `runCouncilDebate` (types.ts lines 685-761), written by
recursion on the number of remaining rounds (`round` is the 0-based loop
index, so `round = maxRounds - remaining` at every call).  The base case is
the no-consensus-after-max-rounds synthesis (lines 744-761); each step runs
one round, consults the consensus gate only when `round >= 1`, and either
terminates with a synthesized answer or continues. -/
def debateLoop (o : Oracle) (sel : List AdvisorName) (maxR : Nat) :
    Nat → Nat → DebateState → LoopResult
  | 0, _round, st =>
    let c := (analyzeConsensus o sel st).1
    let fa := generateFinalAnswer o st c
    { events := [moderatorEvent "Maximum rounds reached. Synthesizing perspectives...",
                 finalAnswerEvent fa],
      rounds := [], consensusChecks := [],
      outcome := .ok ({ st with finalAnswer := some fa }, fa) }
  | remaining + 1, round, st =>
    let pre := [statusEvent ("Round " ++ toString (round + 1) ++ " of " ++ toString maxR),
                moderatorEvent ("Starting Round " ++ toString (round + 1) ++ "...")]
    let racc := (runDebateRound o sel st).1
    match (runDebateRound o sel st).2 with
    | .error e =>
      { events := pre ++ racc.events, rounds := [round + 1],
        consensusChecks := [], outcome := .error e }
    | .ok st1 =>
      if round ≥ 1 then
        let gate := [statusEvent "Checking for consensus...", consensusCheckEvent]
        let c := (analyzeConsensus o sel st1).1
        if c.consensusReached then
          let fa := generateFinalAnswer o st1 c
          { events := pre ++ racc.events ++ gate ++
              [statusEvent "Generating final consensus...",
               moderatorEvent "Consensus reached! Generating final answer...",
               finalAnswerEvent fa],
            rounds := [round + 1], consensusChecks := [round + 1],
            outcome := .ok ({ st1 with consensusReached := true, finalAnswer := some fa }, fa) }
        else
          let rest := debateLoop o sel maxR remaining (round + 1) st1
          { events := pre ++ racc.events ++ gate ++ rest.events,
            rounds := (round + 1) :: rest.rounds,
            consensusChecks := (round + 1) :: rest.consensusChecks,
            outcome := rest.outcome }
      else
        let rest := debateLoop o sel maxR remaining (round + 1) st1
        { events := pre ++ racc.events ++ rest.events,
          rounds := (round + 1) :: rest.rounds,
          consensusChecks := rest.consensusChecks,
          outcome := rest.outcome }

/-- The research phase of `runCouncilDebate` (types.ts lines 660-682):
when the research gate fires, run the search, store non-empty results in the
state and emit the research lifecycle events. -/
def researchPhase (o : Oracle) (cfg : Config) (question : String) (st : DebateState) :
    DebateState × List StreamEvent :=
  if shouldActivateResearch cfg question then
    let pr := performResearch o cfg question
    if pr.1.length > 0 then
      ({ st with researchResults := some pr.1 },
       statusEvent "Performing web research..." :: pr.2 ++
         [⟨.research_results, none,
           some ("Found " ++ toString pr.1.length ++ " relevant sources")⟩])
    else (st, statusEvent "Performing web research..." :: pr.2)
  else (st, [])

/-- `runCouncilDebate`: cost-estimate event, research phase (the
clarification gate of the source is disabled/commented out), then the round
loop. -/
def runCouncilDebate (o : Oracle) (cfg : Config) (question : String) : LoopResult :=
  let st := createInitialState cfg question
  let costEv : StreamEvent := ⟨.cost_estimate, none, none⟩
  let rp := researchPhase o cfg question st
  let lr := debateLoop o cfg.selectedAdvisors (modeRounds cfg.mode)
      (modeRounds cfg.mode) 0 rp.1
  { lr with events := costEv :: rp.2 ++ lr.events }

/-! ### The API route (`src/app/api/council/route.ts`) -/

/-- `getSafeErrorMessage` from the Security Utilities module (the second
document concatenated into `src/lib/utils/cost-calculator.ts`, the source of
`lib/utils/security.ts`): in development mode the raw error message is
returned; in production, known error kinds map to fixed user-facing texts
and everything else to a generic message.  The values thrown by the debate
and caught by the route are `Error` objects, so both `error instanceof
Error` tests of the source hold and `msg` is the error's `message`. -/
def getSafeErrorMessage (devMode : Bool) (msg : String) : String :=
  if devMode then msg
  else if strContains msg "API key" then "Invalid API key. Please check your settings."
  else if strContains msg "rate limit" then "Too many requests. Please try again later."
  else if strContains msg "timeout" then "Request timed out. Please try again."
  else if strContains msg "network" then "Network error. Please check your connection."
  else "An error occurred. Please try again."

/-- The fatal `error` event the route's catch block writes. -/
def fatalErrorEvent (devMode : Bool) (msg : String) : StreamEvent :=
  ⟨.error, none, some (getSafeErrorMessage devMode msg)⟩

/-- The event stream the `POST` handler of `route.ts` writes: the debate's
own events, followed — when the debate threw — by exactly one safe `error`
event appended by the catch block. -/
def councilPOST (o : Oracle) (cfg : Config) (devMode : Bool) (question : String) :
    List StreamEvent :=
  let r := runCouncilDebate o cfg question
  match r.outcome with
  | .ok _ => r.events
  | .error e => r.events ++ [fatalErrorEvent devMode e]

/-! ### Basic invariants of the round executor -/

/-- An advisor turn leaves every state field except `agentResponses`
untouched; the new state is the old one with at most one response pushed. -/
theorem advisorTurn_state_eq (o : Oracle) (sel : List AdvisorName) (a : AdvisorName)
    (st : DebateState) :
    (advisorTurn o sel a st).state =
      if isFullSuccess (o.advisorCall st.currentRound a)
      then pushResponse st a (fullResponse (o.advisorCall st.currentRound a))
      else st := by
  unfold advisorTurn isFullSuccess fullResponse
  cases o.advisorCall st.currentRound a with
  | failure msg chunks => simp
  | success chunks =>
    by_cases h : String.join chunks == "" <;> simp [h]

/-- The success contribution of one turn. -/
theorem advisorTurn_succ (o : Oracle) (sel : List AdvisorName) (a : AdvisorName)
    (st : DebateState) :
    (advisorTurn o sel a st).succ =
      if isFullSuccess (o.advisorCall st.currentRound a) then 1 else 0 := by
  unfold advisorTurn isFullSuccess
  cases o.advisorCall st.currentRound a with
  | failure msg chunks => simp
  | success chunks =>
    by_cases h : String.join chunks == "" <;> simp [h]

/-- A turn does not change `currentRound`. -/
theorem advisorTurn_currentRound (o : Oracle) (sel : List AdvisorName) (a : AdvisorName)
    (st : DebateState) :
    (advisorTurn o sel a st).state.currentRound = st.currentRound := by
  rw [advisorTurn_state_eq]
  split <;> rfl

/-- The advisor loop does not change `currentRound`. -/
theorem runRoundAux_currentRound (o : Oracle) (allSel : List AdvisorName) :
    ∀ (l : List AdvisorName) (st : DebateState),
      (runRoundAux o allSel l st).state.currentRound = st.currentRound
  | [], _ => rfl
  | a :: rest, st => by
    unfold runRoundAux
    rw [runRoundAux_currentRound o allSel rest, advisorTurn_currentRound]

/-- The loop's success count is the number of advisors whose call at the
current round fully succeeded. -/
theorem runRoundAux_succ (o : Oracle) (allSel : List AdvisorName) :
    ∀ (l : List AdvisorName) (st : DebateState),
      (runRoundAux o allSel l st).succ =
        l.countP fun a => isFullSuccess (o.advisorCall st.currentRound a)
  | [], _ => rfl
  | a :: rest, st => by
    unfold runRoundAux
    simp only [List.countP_cons]
    rw [runRoundAux_succ o allSel rest, advisorTurn_currentRound, advisorTurn_succ]
    by_cases h : isFullSuccess (o.advisorCall st.currentRound a) <;> simp [h] <;> omega

/-- Frame facts of a turn: every field other than `agentResponses` is
preserved. -/
theorem advisorTurn_frame (o : Oracle) (sel : List AdvisorName) (a : AdvisorName)
    (st : DebateState) :
    (advisorTurn o sel a st).state.messages = st.messages ∧
    (advisorTurn o sel a st).state.maxRounds = st.maxRounds ∧
    (advisorTurn o sel a st).state.consensusReached = st.consensusReached ∧
    (advisorTurn o sel a st).state.needsClarification = st.needsClarification ∧
    (advisorTurn o sel a st).state.clarificationQuestion = st.clarificationQuestion ∧
    (advisorTurn o sel a st).state.finalAnswer = st.finalAnswer ∧
    (advisorTurn o sel a st).state.researchResults = st.researchResults := by
  rw [advisorTurn_state_eq]
  split <;> exact ⟨rfl, rfl, rfl, rfl, rfl, rfl, rfl⟩

/-- Frame facts of the advisor loop: every field other than `agentResponses`
is preserved. -/
theorem runRoundAux_frame (o : Oracle) (allSel : List AdvisorName) :
    ∀ (l : List AdvisorName) (st : DebateState),
      (runRoundAux o allSel l st).state.messages = st.messages ∧
      (runRoundAux o allSel l st).state.maxRounds = st.maxRounds ∧
      (runRoundAux o allSel l st).state.consensusReached = st.consensusReached ∧
      (runRoundAux o allSel l st).state.needsClarification = st.needsClarification ∧
      (runRoundAux o allSel l st).state.clarificationQuestion = st.clarificationQuestion ∧
      (runRoundAux o allSel l st).state.finalAnswer = st.finalAnswer ∧
      (runRoundAux o allSel l st).state.researchResults = st.researchResults
  | [], _ => ⟨rfl, rfl, rfl, rfl, rfl, rfl, rfl⟩
  | a :: rest, st => by
    unfold runRoundAux
    have h1 := advisorTurn_frame o allSel a st
    have h2 := runRoundAux_frame o allSel rest (advisorTurn o allSel a st).state
    exact ⟨h2.1.trans h1.1, h2.2.1.trans h1.2.1, h2.2.2.1.trans h1.2.2.1,
      h2.2.2.2.1.trans h1.2.2.2.1, h2.2.2.2.2.1.trans h1.2.2.2.2.1,
      h2.2.2.2.2.2.1.trans h1.2.2.2.2.2.1, h2.2.2.2.2.2.2.trans h1.2.2.2.2.2.2⟩

/-- A turn leaves other advisors' response lists unchanged. -/
theorem advisorTurn_responses_other (o : Oracle) (sel : List AdvisorName) (a : AdvisorName)
    (st : DebateState) (b : AdvisorName) (hb : b ≠ a) :
    (advisorTurn o sel a st).state.agentResponses b = st.agentResponses b := by
  rw [advisorTurn_state_eq]
  split
  · simp [pushResponse, hb]
  · rfl

/-- The result of a turn for the advisor itself. -/
theorem advisorTurn_responses_self (o : Oracle) (sel : List AdvisorName) (a : AdvisorName)
    (st : DebateState) :
    (advisorTurn o sel a st).state.agentResponses a =
      if isFullSuccess (o.advisorCall st.currentRound a)
      then st.agentResponses a ++ [fullResponse (o.advisorCall st.currentRound a)]
      else st.agentResponses a := by
  rw [advisorTurn_state_eq]
  split
  · simp [pushResponse]
  · rfl

/-- The loop leaves the response lists of advisors outside it unchanged. -/
theorem runRoundAux_responses_not_mem (o : Oracle) (allSel : List AdvisorName) :
    ∀ (l : List AdvisorName) (st : DebateState) (a : AdvisorName), a ∉ l →
      (runRoundAux o allSel l st).state.agentResponses a = st.agentResponses a
  | [], _, _, _ => rfl
  | b :: rest, st, a, ha => by
    unfold runRoundAux
    rw [runRoundAux_responses_not_mem o allSel rest _ a (fun h => ha (List.mem_cons_of_mem b h)),
      advisorTurn_responses_other o allSel b st a (fun h => ha (h ▸ List.mem_cons_self b rest))]

/-- When an advisor's call at the current round is not a full success, the
loop leaves its response list unchanged (whether the call threw or returned
empty text). -/
theorem runRoundAux_responses_no_success (o : Oracle) (allSel : List AdvisorName) :
    ∀ (l : List AdvisorName) (st : DebateState) (a : AdvisorName),
      isFullSuccess (o.advisorCall st.currentRound a) = false →
      (runRoundAux o allSel l st).state.agentResponses a = st.agentResponses a
  | [], _, _, _ => rfl
  | b :: rest, st, a, ha => by
    unfold runRoundAux
    have hcr : (advisorTurn o allSel b st).state.currentRound = st.currentRound :=
      advisorTurn_currentRound o allSel b st
    rw [runRoundAux_responses_no_success o allSel rest _ a (by rw [hcr]; exact ha)]
    by_cases hab : a = b
    · subst hab
      rw [advisorTurn_responses_self, ha]
      simp
    · exact advisorTurn_responses_other o allSel b st a hab

/-- For an advisor occurring once in the loop, the loop appends exactly the
full response on success and nothing otherwise. -/
theorem runRoundAux_responses_mem (o : Oracle) (allSel : List AdvisorName) :
    ∀ (l : List AdvisorName) (st : DebateState) (a : AdvisorName), l.Nodup → a ∈ l →
      (runRoundAux o allSel l st).state.agentResponses a =
        if isFullSuccess (o.advisorCall st.currentRound a)
        then st.agentResponses a ++ [fullResponse (o.advisorCall st.currentRound a)]
        else st.agentResponses a
  | [], _, _, _, ha => absurd ha (List.not_mem_nil _)
  | b :: rest, st, a, hnd, ha => by
    unfold runRoundAux
    have hcr : (advisorTurn o allSel b st).state.currentRound = st.currentRound :=
      advisorTurn_currentRound o allSel b st
    by_cases hab : a = b
    · subst hab
      have hnr : a ∉ rest := (List.nodup_cons.mp hnd).1
      rw [runRoundAux_responses_not_mem o allSel rest _ a hnr, advisorTurn_responses_self]
    · have har : a ∈ rest := (List.mem_cons.mp ha).resolve_left hab
      rw [runRoundAux_responses_mem o allSel rest _ a (List.nodup_cons.mp hnd).2 har, hcr,
        advisorTurn_responses_other o allSel b st a hab]

/-! ### Claim C5 -/

/-- C5: if `analyzeConsensus` is invoked on a state in which fewer than 3
selected advisors have a non-empty latest response, it returns the default
verdict (`consensusReached = false`, `agreementLevel = 0`, empty agreement
and disagreement lists) and makes no external completion call. -/
theorem C5_consensus_short_circuit (o : Oracle) (sel : List AdvisorName) (st : DebateState)
    (h : (latestResponses sel st).length < 3) :
    (analyzeConsensus o sel st).1.consensusReached = false ∧
    (analyzeConsensus o sel st).1.agreementLevel = 0 ∧
    (analyzeConsensus o sel st).1.agreements = [] ∧
    (analyzeConsensus o sel st).1.disagreements = [] ∧
    (analyzeConsensus o sel st).2 = false := by
  unfold analyzeConsensus
  rw [if_pos h]
  exact ⟨rfl, rfl, rfl, rfl, rfl⟩

/-- A fully quiet test oracle used to instantiate universally quantified
theorems at concrete inputs. -/
def oTest : Oracle :=
  { advisorCall := fun _ _ => .success ["ok"]
    moderatorReply := fun _ => ""
    finalReply := "FA"
    searchOutcome := none }

/-- A fresh initial state over all five advisors. -/
def stEmpty : DebateState :=
  createInitialState ⟨.quick, ADVISOR_NAMES, false, false⟩ "Q"

/-- Witness for C5 at a concrete input: a fresh state has no responses at
all, and the analyzer returns the default verdict without a call. -/
theorem C5_consensus_short_circuit_witness :
    (latestResponses ADVISOR_NAMES stEmpty).length < 3 ∧
    ((analyzeConsensus oTest ADVISOR_NAMES stEmpty).1.consensusReached = false ∧
     (analyzeConsensus oTest ADVISOR_NAMES stEmpty).1.agreementLevel = 0 ∧
     (analyzeConsensus oTest ADVISOR_NAMES stEmpty).1.agreements = [] ∧
     (analyzeConsensus oTest ADVISOR_NAMES stEmpty).1.disagreements = [] ∧
     (analyzeConsensus oTest ADVISOR_NAMES stEmpty).2 = false) :=
  ⟨by decide, C5_consensus_short_circuit oTest ADVISOR_NAMES stEmpty (by decide)⟩

/-! ### Claim C6 -/

/-- C6: consensus parsing is total and per-field tolerant — whenever a
labeled field is absent from the moderator's reply (its pattern does not
match anywhere), the parsed verdict carries that field's zero-value, the
other fields being extracted independently; in particular a reply missing
every field parses to `consensusReached = false`.  (The parser is a total
Lean function, so "never throws" holds by construction.) -/
theorem C6_parse_tolerant (content : String) :
    (scanFirst matchConsensusAt content.toList = none →
      (parseConsensusReply content).consensusReached = false) ∧
    (scanFirst matchLevelAt content.toList = none →
      (parseConsensusReply content).agreementLevel = 0) ∧
    (afterLit "AGREEMENTS:".toList content.toList = none →
      (parseConsensusReply content).agreements = []) ∧
    (afterLit "DISAGREEMENTS:".toList content.toList = none →
      (parseConsensusReply content).disagreements = []) ∧
    (afterLit "MAJORITY_VIEW:".toList content.toList = none →
      (parseConsensusReply content).majorityView = none) ∧
    (afterLit "MINORITY_VIEWS:".toList content.toList = none →
      (parseConsensusReply content).minorityViews = none) := by
  refine ⟨fun h => ?_, fun h => ?_, fun h => ?_, fun h => ?_, fun h => ?_, fun h => ?_⟩ <;>
    simp only [parseConsensusReply, captureBetween, captureAfter, h, Option.map_none',
      Option.getD_none, Nat.cast_zero, zero_div]

/-- Witness for C6: a reply containing none of the expected labels parses to
the all-zero verdict. -/
theorem C6_parse_tolerant_witness :
    scanFirst matchConsensusAt "hello".toList = none ∧
    (parseConsensusReply "hello").consensusReached = false :=
  ⟨by decide, (C6_parse_tolerant "hello").1 (by decide)⟩

/-! ### Claim C8 -/

/-- Counterexample to C8 as stated: a moderator reply reporting an agreement
level above 100 yields an `agreementLevel` strictly greater than 1 — the
parsed number is divided by 100 without any clamping. -/
theorem C8_agreement_level_counterexample :
    1 < (parseConsensusReply "AGREEMENT_LEVEL: 250").agreementLevel := by
  have h : (parseConsensusReply "AGREEMENT_LEVEL: 250").agreementLevel = ((250 : ℕ) : ℚ) / 100 :=
    rfl
  rw [h]
  norm_num

/-- C8 (amended): the parsed `agreementLevel` is always non-negative, and it
lies within `[0, 1]` whenever the number the moderator supplies is at most
100 (as the reply format requests); nothing bounds it above when the
moderator reports a larger number. -/
theorem C8_agreement_level_range (content : String) :
    0 ≤ (parseConsensusReply content).agreementLevel ∧
    ((scanFirst matchLevelAt content.toList).getD 0 ≤ 100 →
      (parseConsensusReply content).agreementLevel ≤ 1) := by
  unfold parseConsensusReply
  constructor
  · exact div_nonneg (Nat.cast_nonneg _) (by norm_num)
  · intro h
    rw [div_le_one (by norm_num : (0:ℚ) < 100)]
    exact_mod_cast Nat.cast_le.mpr h |>.trans (by norm_num)

/-- Witness for C8 (amended) at a concrete reply with a level within range. -/
theorem C8_agreement_level_range_witness :
    ((scanFirst matchLevelAt "AGREEMENT_LEVEL: 80".toList).getD 0 ≤ 100 ∧
     0 ≤ (parseConsensusReply "AGREEMENT_LEVEL: 80").agreementLevel ∧
     (parseConsensusReply "AGREEMENT_LEVEL: 80").agreementLevel ≤ 1) :=
  ⟨by decide, (C8_agreement_level_range "AGREEMENT_LEVEL: 80").1,
   (C8_agreement_level_range "AGREEMENT_LEVEL: 80").2 (by decide)⟩

/-! ### Claim C1 -/

/-- Oracle for the C1 failing input: in round 1, the first advisor (naval)
answers `"A"` and the second (elon) answers `"B"`. -/
def oC1 : Oracle :=
  { advisorCall := fun _ a => if a = .naval then .success ["A"] else .success ["B"]
    moderatorReply := fun _ => ""
    finalReply := "FA"
    searchOutcome := none }

/-- The C1 failing input: a fresh quick-mode session over `[naval, elon]`
with question `"Q"`. -/
def stC1 : DebateState :=
  createInitialState ⟨.quick, [.naval, .elon], false, false⟩ "Q"

/-- C1 fails on the code: because `runDebateRound` increments `currentRound`
*before* calling `getAdvisorResponse`, the `state.currentRound === 0` branch
building the round-1 "initial perspective" prompt is unreachable.  Evaluating
the embedded round executor on the failing input shows that in round 1 the
second advisor's prompt already contains the first advisor's round-1
response (and is even labeled "Round 2"), where the claim requires round-1
prompts to contain only the question and research findings. -/
theorem C1_round1_prompt_contains_peer_response :
    stC1.currentRound = 0 ∧
    strContains (((runDebateRound oC1 [.naval, .elon] stC1).1.prompts.map Prod.snd).getD 1 "")
      "**Naval Ravikant**: A" = true ∧
    strContains (((runDebateRound oC1 [.naval, .elon] stC1).1.prompts.map Prod.snd).getD 1 "")
      "This is Round 2" = true ∧
    strContains (((runDebateRound oC1 [.naval, .elon] stC1).1.prompts.map Prod.snd).getD 0 "")
      "This is Round 2" = true ∧
    strContains (((runDebateRound oC1 [.naval, .elon] stC1).1.prompts.map Prod.snd).getD 0 "")
      "This is Round 1" = false := by
  refine ⟨rfl, ?_, ?_, ?_, ?_⟩ <;> decide

/-! ### Unfolding equations for the round loop -/

/-- The two narration events opening a loop iteration. -/
def roundPreEvents (maxR round : Nat) : List StreamEvent :=
  [statusEvent ("Round " ++ toString (round + 1) ++ " of " ++ toString maxR),
   moderatorEvent ("Starting Round " ++ toString (round + 1) ++ "...")]

/-- The two events of the consensus gate. -/
def gateEvents : List StreamEvent :=
  [statusEvent "Checking for consensus...", consensusCheckEvent]

/-- Unfolding: the post-loop synthesis base case. -/
theorem debateLoop_base (o : Oracle) (sel : List AdvisorName) (maxR round : Nat)
    (st : DebateState) :
    debateLoop o sel maxR 0 round st =
      { events := [moderatorEvent "Maximum rounds reached. Synthesizing perspectives...",
                   finalAnswerEvent (generateFinalAnswer o st (analyzeConsensus o sel st).1)],
        rounds := [], consensusChecks := [],
        outcome := .ok
          ({ st with finalAnswer := some (generateFinalAnswer o st (analyzeConsensus o sel st).1) },
           generateFinalAnswer o st (analyzeConsensus o sel st).1) } := rfl

/-- Unfolding: an iteration whose round throws. -/
theorem debateLoop_succ_error (o : Oracle) (sel : List AdvisorName) (maxR n round : Nat)
    (st : DebateState) (e : String) (h : (runDebateRound o sel st).2 = .error e) :
    debateLoop o sel maxR (n + 1) round st =
      { events := roundPreEvents maxR round ++ (runDebateRound o sel st).1.events,
        rounds := [round + 1], consensusChecks := [], outcome := .error e } := by
  simp only [debateLoop, h, roundPreEvents]

/-- Unfolding: a successful iteration before round 2 — no consensus gate. -/
theorem debateLoop_succ_ok_noGate (o : Oracle) (sel : List AdvisorName) (maxR n round : Nat)
    (st st1 : DebateState) (h : (runDebateRound o sel st).2 = .ok st1) (hround : round < 1) :
    debateLoop o sel maxR (n + 1) round st =
      { events := roundPreEvents maxR round ++ (runDebateRound o sel st).1.events ++
          (debateLoop o sel maxR n (round + 1) st1).events,
        rounds := (round + 1) :: (debateLoop o sel maxR n (round + 1) st1).rounds,
        consensusChecks := (debateLoop o sel maxR n (round + 1) st1).consensusChecks,
        outcome := (debateLoop o sel maxR n (round + 1) st1).outcome } := by
  simp only [debateLoop, h, roundPreEvents]
  rw [if_neg (by omega)]

/-- Unfolding: a successful iteration from round 2 onward whose gate finds
consensus — terminal synthesis. -/
theorem debateLoop_succ_ok_gate_reached (o : Oracle) (sel : List AdvisorName) (maxR n round : Nat)
    (st st1 : DebateState) (h : (runDebateRound o sel st).2 = .ok st1) (hround : 1 ≤ round)
    (hc : (analyzeConsensus o sel st1).1.consensusReached = true) :
    debateLoop o sel maxR (n + 1) round st =
      { events := roundPreEvents maxR round ++ (runDebateRound o sel st).1.events ++ gateEvents ++
          [statusEvent "Generating final consensus...",
           moderatorEvent "Consensus reached! Generating final answer...",
           finalAnswerEvent (generateFinalAnswer o st1 (analyzeConsensus o sel st1).1)],
        rounds := [round + 1], consensusChecks := [round + 1],
        outcome := .ok
          ({ st1 with
              consensusReached := true
              finalAnswer := some (generateFinalAnswer o st1 (analyzeConsensus o sel st1).1) },
           generateFinalAnswer o st1 (analyzeConsensus o sel st1).1) } := by
  simp only [debateLoop, h, roundPreEvents, gateEvents]
  rw [if_pos (by omega), if_pos hc]

/-- Unfolding: a successful iteration from round 2 onward whose gate finds no
consensus — continue looping. -/
theorem debateLoop_succ_ok_gate_notReached (o : Oracle) (sel : List AdvisorName)
    (maxR n round : Nat) (st st1 : DebateState) (h : (runDebateRound o sel st).2 = .ok st1)
    (hround : 1 ≤ round) (hc : (analyzeConsensus o sel st1).1.consensusReached = false) :
    debateLoop o sel maxR (n + 1) round st =
      { events := roundPreEvents maxR round ++ (runDebateRound o sel st).1.events ++ gateEvents ++
          (debateLoop o sel maxR n (round + 1) st1).events,
        rounds := (round + 1) :: (debateLoop o sel maxR n (round + 1) st1).rounds,
        consensusChecks := (round + 1) :: (debateLoop o sel maxR n (round + 1) st1).consensusChecks,
        outcome := (debateLoop o sel maxR n (round + 1) st1).outcome } := by
  simp only [debateLoop, h, roundPreEvents, gateEvents]
  rw [if_pos (by omega), if_neg (by simp [hc])]

/-! ### Loop invariants for the round budget and the consensus gate -/

/-- The loop starts at most as many rounds as remain in its budget. -/
theorem debateLoop_rounds_len (o : Oracle) (sel : List AdvisorName) (maxR : Nat) :
    ∀ (remaining round : Nat) (st : DebateState),
      (debateLoop o sel maxR remaining round st).rounds.length ≤ remaining := by
  intro remaining
  induction remaining with
  | zero => intro round st; simp [debateLoop_base]
  | succ n ih =>
    intro round st
    cases hres : (runDebateRound o sel st).2 with
    | error e =>
      rw [debateLoop_succ_error o sel maxR n round st e hres]
      simp
    | ok st1 =>
      by_cases hround : 1 ≤ round
      · by_cases hc : (analyzeConsensus o sel st1).1.consensusReached = true
        · rw [debateLoop_succ_ok_gate_reached o sel maxR n round st st1 hres hround hc]
          simp
        · rw [debateLoop_succ_ok_gate_notReached o sel maxR n round st st1 hres hround
            (by simpa using hc)]
          simpa using ih (round + 1) st1
      · rw [debateLoop_succ_ok_noGate o sel maxR n round st st1 hres (by omega)]
        simpa using ih (round + 1) st1

/-- The consensus gate only ever runs from round 2 onward: every recorded
gate round is at least 2. -/
theorem debateLoop_consensusChecks_ge_two (o : Oracle) (sel : List AdvisorName) (maxR : Nat) :
    ∀ (remaining round : Nat) (st : DebateState),
      ∀ r ∈ (debateLoop o sel maxR remaining round st).consensusChecks, 2 ≤ r := by
  intro remaining
  induction remaining with
  | zero => intro round st r hr; rw [debateLoop_base] at hr; simp at hr
  | succ n ih =>
    intro round st r hr
    cases hres : (runDebateRound o sel st).2 with
    | error e =>
      rw [debateLoop_succ_error o sel maxR n round st e hres] at hr
      simp at hr
    | ok st1 =>
      by_cases hround : 1 ≤ round
      · by_cases hc : (analyzeConsensus o sel st1).1.consensusReached = true
        · rw [debateLoop_succ_ok_gate_reached o sel maxR n round st st1 hres hround hc] at hr
          simp at hr
          omega
        · rw [debateLoop_succ_ok_gate_notReached o sel maxR n round st st1 hres hround
            (by simpa using hc)] at hr
          simp at hr
          rcases hr with hr | hr
          · omega
          · exact ih (round + 1) st1 r hr
      · rw [debateLoop_succ_ok_noGate o sel maxR n round st st1 hres (by omega)] at hr
        exact ih (round + 1) st1 r hr

/-! ### Claim C3 -/

/-- C3: the mode map resolves quick/standard/deep to exactly 1/2/3 rounds,
the session's `maxRounds` is set from it, the round loop starts at most
`maxRounds` rounds, and the in-loop consensus gate never runs before round 2
(the post-loop `analyzeConsensus` call is part of final-answer synthesis,
not a gate: it emits no `consensus_check` event and cannot alter control
flow). -/
theorem C3_mode_and_round_budget (o : Oracle) (cfg : Config) (q : String)
    (h2 : 2 ≤ cfg.selectedAdvisors.length) (h5 : cfg.selectedAdvisors.length ≤ 5) :
    (modeRounds .quick = 1 ∧ modeRounds .standard = 2 ∧ modeRounds .deep = 3) ∧
    (createInitialState cfg q).maxRounds = modeRounds cfg.mode ∧
    (runCouncilDebate o cfg q).rounds.length ≤ modeRounds cfg.mode ∧
    ∀ r ∈ (runCouncilDebate o cfg q).consensusChecks, 2 ≤ r := by
  refine ⟨⟨rfl, rfl, rfl⟩, rfl, ?_, ?_⟩
  · unfold runCouncilDebate
    exact debateLoop_rounds_len o cfg.selectedAdvisors (modeRounds cfg.mode)
      (modeRounds cfg.mode) 0 _
  · intro r hr
    unfold runCouncilDebate at hr
    exact debateLoop_consensusChecks_ge_two o cfg.selectedAdvisors
      (modeRounds cfg.mode) (modeRounds cfg.mode) 0 _ r hr

/-- Witness for C3 at a concrete standard-mode session with 3 advisors. -/
theorem C3_mode_and_round_budget_witness :
    (2 ≤ ([AdvisorName.naval, .elon, .larry] : List AdvisorName).length ∧
      ([AdvisorName.naval, .elon, .larry] : List AdvisorName).length ≤ 5) ∧
    ((modeRounds .quick = 1 ∧ modeRounds .standard = 2 ∧ modeRounds .deep = 3) ∧
      (createInitialState ⟨.standard, [.naval, .elon, .larry], false, false⟩ "Q").maxRounds =
        modeRounds DebateMode.standard ∧
      (runCouncilDebate oTest ⟨.standard, [.naval, .elon, .larry], false, false⟩ "Q").rounds.length ≤
        modeRounds DebateMode.standard ∧
      ∀ r ∈ (runCouncilDebate oTest
          ⟨.standard, [.naval, .elon, .larry], false, false⟩ "Q").consensusChecks, 2 ≤ r) :=
  ⟨⟨by decide, by decide⟩,
    C3_mode_and_round_budget oTest ⟨.standard, [.naval, .elon, .larry], false, false⟩ "Q"
      (by decide) (by decide)⟩

/-! ### Projections of `runDebateRound` -/

/-- The accumulator of a round is the advisor loop run on the bumped state. -/
theorem runDebateRound_fst (o : Oracle) (sel : List AdvisorName) (st : DebateState) :
    (runDebateRound o sel st).1 =
      runRoundAux o sel sel { st with currentRound := st.currentRound + 1 } := rfl

/-- A round returns its final state when at least 2 turns succeeded. -/
theorem runDebateRound_snd_ok (o : Oracle) (sel : List AdvisorName) (st : DebateState)
    (h : 2 ≤ (runRoundAux o sel sel { st with currentRound := st.currentRound + 1 }).succ) :
    (runDebateRound o sel st).2 =
      .ok (runRoundAux o sel sel { st with currentRound := st.currentRound + 1 }).state := by
  simp only [runDebateRound]
  rw [if_neg (by omega)]

/-- A round throws the insufficient-responses error when fewer than 2 turns
succeeded. -/
theorem runDebateRound_snd_error (o : Oracle) (sel : List AdvisorName) (st : DebateState)
    (h : (runRoundAux o sel sel { st with currentRound := st.currentRound + 1 }).succ < 2) :
    (runDebateRound o sel st).2 =
      .error (insufficientMsg
        (runRoundAux o sel sel { st with currentRound := st.currentRound + 1 }).succ) := by
  simp only [runDebateRound]
  rw [if_pos h]

/-! ### Shapes of the events emitted inside a round -/

/-- Every event of one advisor turn is a status, agent-lifecycle, or error
event; error events are exactly the advisor-failure ones. -/
theorem advisorTurn_events_shape (o : Oracle) (sel : List AdvisorName) (a : AdvisorName)
    (st : DebateState) :
    ∀ e ∈ (advisorTurn o sel a st).events,
      (e.type = .status ∨ e.type = .agent_start ∨ e.type = .agent_response ∨
        e.type = .agent_complete ∨ e.type = .error) ∧
      (e.type = .error → ∃ m, e = advisorErrorEvent a m) := by
  intro e he
  unfold advisorTurn at he
  cases hoc : o.advisorCall st.currentRound a with
  | failure msg chunks =>
    rw [hoc] at he
    simp only [List.mem_cons, List.mem_append, List.mem_map, List.mem_singleton,
      List.not_mem_nil, or_false] at he
    rcases he with rfl | rfl | ⟨c, _, rfl⟩ | rfl
    · exact ⟨Or.inl rfl, fun h => by simp [thinkingEvent] at h⟩
    · exact ⟨Or.inr (Or.inl rfl), fun h => by simp [agentStartEvent] at h⟩
    · exact ⟨Or.inr (Or.inr (Or.inl rfl)), fun h => by simp [agentResponseEvent] at h⟩
    · exact ⟨Or.inr (Or.inr (Or.inr (Or.inr rfl))), fun _ => ⟨msg, rfl⟩⟩
  | success chunks =>
    rw [hoc] at he
    have he' : e ∈ thinkingEvent a :: agentStartEvent a ::
        (chunks.map (agentResponseEvent a) ++ [agentCompleteEvent a]) := by
      by_cases hfull : String.join chunks == "" <;> simp only [hfull] at he <;> simpa using he
    simp only [List.mem_cons, List.mem_append, List.mem_map, List.mem_singleton,
      List.not_mem_nil, or_false] at he'
    rcases he' with rfl | rfl | ⟨c, _, rfl⟩ | rfl
    · exact ⟨Or.inl rfl, fun h => by simp [thinkingEvent] at h⟩
    · exact ⟨Or.inr (Or.inl rfl), fun h => by simp [agentStartEvent] at h⟩
    · exact ⟨Or.inr (Or.inr (Or.inl rfl)), fun h => by simp [agentResponseEvent] at h⟩
    · exact ⟨Or.inr (Or.inr (Or.inr (Or.inl rfl))), fun h => by simp [agentCompleteEvent] at h⟩

/-- Lift of `advisorTurn_events_shape` to the whole advisor loop. -/
theorem runRoundAux_events_shape (o : Oracle) (allSel : List AdvisorName) :
    ∀ (l : List AdvisorName) (st : DebateState), ∀ e ∈ (runRoundAux o allSel l st).events,
      (e.type = .status ∨ e.type = .agent_start ∨ e.type = .agent_response ∨
        e.type = .agent_complete ∨ e.type = .error) ∧
      (e.type = .error → ∃ a m, a ∈ l ∧ e = advisorErrorEvent a m)
  | [], _, e, he => absurd he (List.not_mem_nil e)
  | a :: rest, st, e, he => by
    unfold runRoundAux at he
    rw [List.mem_append] at he
    rcases he with he | he
    · have h := advisorTurn_events_shape o allSel a st e he
      exact ⟨h.1, fun ht => by
        obtain ⟨m, hm⟩ := h.2 ht
        exact ⟨a, m, List.mem_cons_self a rest, hm⟩⟩
    · have h := runRoundAux_events_shape o allSel rest _ e he
      exact ⟨h.1, fun ht => by
        obtain ⟨b, m, hb, hm⟩ := h.2 ht
        exact ⟨b, m, List.mem_cons_of_mem a hb, hm⟩⟩

/-- No `final_answer` and no `consensus_check` event is ever emitted inside a
round. -/
theorem runRoundAux_countP_zero (o : Oracle) (allSel : List AdvisorName)
    (l : List AdvisorName) (st : DebateState) (t : EventType)
    (ht : t = EventType.final_answer ∨ t = EventType.consensus_check) :
    ((runRoundAux o allSel l st).events.countP fun e => e.type == t) = 0 := by
  rw [List.countP_eq_zero]
  intro e he
  have h := (runRoundAux_events_shape o allSel l st e he).1
  rcases ht with rfl | rfl <;>
    rcases h with h | h | h | h | h <;> simp [h]

/-! ### Claim C4 -/

/-- A quick-mode configuration with all five advisors and no research. -/
def cfgQuick : Config := ⟨.quick, ADVISOR_NAMES, false, false⟩

/-- C4: in quick mode (`maxRounds = 1`) with 5 advisors all succeeding, the
session runs exactly one round, the consensus gate never runs and no
`consensus_check` event is emitted (`round >= 1` fails on the only
iteration), a final answer is synthesized unconditionally, and exactly one
`final_answer` event appears in the stream.  (The post-loop synthesis does
invoke `analyzeConsensus` to build its prompt, but that call is not a gate:
it emits no event and cannot alter control flow.) -/
theorem C4_quick_mode (o : Oracle) (q : String)
    (hall : ∀ a ∈ ADVISOR_NAMES, isFullSuccess (o.advisorCall 1 a) = true) :
    (runCouncilDebate o cfgQuick q).rounds = [1] ∧
    (runCouncilDebate o cfgQuick q).consensusChecks = [] ∧
    ((runCouncilDebate o cfgQuick q).events.countP fun e => e.type == .consensus_check) = 0 ∧
    ((runCouncilDebate o cfgQuick q).events.countP fun e => e.type == .final_answer) = 1 ∧
    ∃ stF, (runCouncilDebate o cfgQuick q).outcome = .ok (stF, o.finalReply) ∧
      stF.finalAnswer = some o.finalReply ∧ stF.currentRound = 1 := by
  have hnores : shouldActivateResearch cfgQuick q = false := rfl
  set st0 := createInitialState cfgQuick q with hst0
  have hsucc : (runRoundAux o ADVISOR_NAMES ADVISOR_NAMES
      { st0 with currentRound := st0.currentRound + 1 }).succ = 5 := by
    rw [runRoundAux_succ]
    exact List.countP_eq_length.mpr (by simpa using hall)
  set st1 := (runRoundAux o ADVISOR_NAMES ADVISOR_NAMES
      { st0 with currentRound := st0.currentRound + 1 }).state with hst1
  have hok : (runDebateRound o ADVISOR_NAMES st0).2 = .ok st1 :=
    runDebateRound_snd_ok o ADVISOR_NAMES st0 (by omega)
  have hloop := debateLoop_succ_ok_noGate o ADVISOR_NAMES 1 0 0 st0 st1 hok (by omega)
  simp only [Nat.zero_add] at hloop
  have hbase := debateLoop_base o ADVISOR_NAMES 1 1 st1
  have hcur1 : st1.currentRound = 1 := by
    rw [hst1, runRoundAux_currentRound]
    rfl
  have hrunc : runCouncilDebate o cfgQuick q =
      { events := ⟨.cost_estimate, none, none⟩ :: (debateLoop o ADVISOR_NAMES 1 1 0 st0).events,
        rounds := (debateLoop o ADVISOR_NAMES 1 1 0 st0).rounds,
        consensusChecks := (debateLoop o ADVISOR_NAMES 1 1 0 st0).consensusChecks,
        outcome := (debateLoop o ADVISOR_NAMES 1 1 0 st0).outcome } := rfl
  rw [hrunc, hloop, hbase]
  refine ⟨by simp, by simp, ?_, ?_, ?_⟩
  · simp only [List.countP_cons, List.countP_append]
    rw [runDebateRound_fst,
      runRoundAux_countP_zero o ADVISOR_NAMES ADVISOR_NAMES _ _ (Or.inr rfl)]
    simp [roundPreEvents, statusEvent, moderatorEvent, finalAnswerEvent]
  · simp only [List.countP_cons, List.countP_append]
    rw [runDebateRound_fst,
      runRoundAux_countP_zero o ADVISOR_NAMES ADVISOR_NAMES _ _ (Or.inl rfl)]
    simp [roundPreEvents, statusEvent, moderatorEvent, finalAnswerEvent]
  · exact ⟨_, rfl, rfl, hcur1⟩

/-- Witness for C4: a concrete oracle whose advisor calls all return the
non-empty chunk list `["ok"]`. -/
theorem C4_quick_mode_witness :
    (∀ a ∈ ADVISOR_NAMES, isFullSuccess (oTest.advisorCall 1 a) = true) ∧
    ((runCouncilDebate oTest cfgQuick "Q").rounds = [1] ∧
     (runCouncilDebate oTest cfgQuick "Q").consensusChecks = [] ∧
     ((runCouncilDebate oTest cfgQuick "Q").events.countP fun e => e.type == .consensus_check) = 0 ∧
     ((runCouncilDebate oTest cfgQuick "Q").events.countP fun e => e.type == .final_answer) = 1 ∧
     ∃ stF, (runCouncilDebate oTest cfgQuick "Q").outcome = .ok (stF, oTest.finalReply) ∧
       stF.finalAnswer = some oTest.finalReply ∧ stF.currentRound = 1) :=
  ⟨by decide, C4_quick_mode oTest "Q" (by decide)⟩

/-! ### Claim C10 -/

/-- C10: the state returned by a successful `runDebateRound` differs from its
input only in `currentRound` (incremented exactly once) and `agentResponses`
(exactly one response appended per fully successful turn, nothing otherwise,
and nothing for advisors outside the selection); every other field is
unchanged. -/
theorem C10_round_frame (o : Oracle) (sel : List AdvisorName) (st : DebateState)
    (hnd : sel.Nodup) (st' : DebateState) (h : (runDebateRound o sel st).2 = .ok st') :
    st'.messages = st.messages ∧
    st'.maxRounds = st.maxRounds ∧
    st'.consensusReached = st.consensusReached ∧
    st'.needsClarification = st.needsClarification ∧
    st'.clarificationQuestion = st.clarificationQuestion ∧
    st'.finalAnswer = st.finalAnswer ∧
    st'.researchResults = st.researchResults ∧
    st'.currentRound = st.currentRound + 1 ∧
    (∀ a, a ∉ sel → st'.agentResponses a = st.agentResponses a) ∧
    ∀ a ∈ sel,
      st'.agentResponses a =
        if isFullSuccess (o.advisorCall (st.currentRound + 1) a)
        then st.agentResponses a ++ [fullResponse (o.advisorCall (st.currentRound + 1) a)]
        else st.agentResponses a := by
  by_cases hs : (runRoundAux o sel sel { st with currentRound := st.currentRound + 1 }).succ < 2
  · rw [runDebateRound_snd_error o sel st hs] at h
    exact absurd h (by simp)
  · rw [runDebateRound_snd_ok o sel st (by omega)] at h
    injection h with h'
    subst h'
    have hf := runRoundAux_frame o sel sel { st with currentRound := st.currentRound + 1 }
    refine ⟨hf.1, hf.2.1, hf.2.2.1, hf.2.2.2.1, hf.2.2.2.2.1, hf.2.2.2.2.2.1,
      hf.2.2.2.2.2.2, ?_, ?_, ?_⟩
    · rw [runRoundAux_currentRound]
    · intro a ha
      exact runRoundAux_responses_not_mem o sel sel _ a ha
    · intro a ha
      exact runRoundAux_responses_mem o sel sel _ a hnd ha

/-- The state a successful two-advisor test round returns. -/
def c10State : DebateState :=
  (runRoundAux oTest [.naval, .elon] [.naval, .elon]
    { stEmpty with currentRound := stEmpty.currentRound + 1 }).state

/-- Witness for C10 at a concrete two-advisor round in which both calls
succeed with the chunk list `["ok"]`. -/
theorem C10_round_frame_witness :
    ([AdvisorName.naval, .elon] : List AdvisorName).Nodup ∧
    (runDebateRound oTest [.naval, .elon] stEmpty).2 = .ok c10State ∧
    (c10State.messages = stEmpty.messages ∧
     c10State.maxRounds = stEmpty.maxRounds ∧
     c10State.consensusReached = stEmpty.consensusReached ∧
     c10State.needsClarification = stEmpty.needsClarification ∧
     c10State.clarificationQuestion = stEmpty.clarificationQuestion ∧
     c10State.finalAnswer = stEmpty.finalAnswer ∧
     c10State.researchResults = stEmpty.researchResults ∧
     c10State.currentRound = stEmpty.currentRound + 1 ∧
     (∀ a, a ∉ ([AdvisorName.naval, .elon] : List AdvisorName) →
        c10State.agentResponses a = stEmpty.agentResponses a) ∧
     ∀ a ∈ ([AdvisorName.naval, .elon] : List AdvisorName),
       c10State.agentResponses a =
         if isFullSuccess (oTest.advisorCall (stEmpty.currentRound + 1) a)
         then stEmpty.agentResponses a ++
           [fullResponse (oTest.advisorCall (stEmpty.currentRound + 1) a)]
         else stEmpty.agentResponses a) :=
  ⟨by decide, rfl, C10_round_frame oTest [.naval, .elon] stEmpty (by decide) c10State rfl⟩

/-! ### Claim C9: decomposing a round into per-advisor blocks -/

/-- The per-advisor event blocks of a round, in selection order, threading
the state exactly as the sequential loop does. -/
def turnBlocks (o : Oracle) (allSel : List AdvisorName) :
    List AdvisorName → DebateState → List (AdvisorName × List StreamEvent)
  | [], _ => []
  | a :: rest, st =>
    (a, (advisorTurn o allSel a st).events) ::
      turnBlocks o allSel rest (advisorTurn o allSel a st).state

/-- The agent-tagged events one turn must produce: `agent_start`, then the
streamed chunks, then `agent_complete` — the latter only when the call
returned (the `error` event of a thrown call carries no agent tag). -/
def taggedTurnShape (o : Oracle) (r : Nat) (a : AdvisorName) : List StreamEvent :=
  match o.advisorCall r a with
  | .failure _ chunks => agentStartEvent a :: chunks.map (agentResponseEvent a)
  | .success chunks => agentStartEvent a :: (chunks.map (agentResponseEvent a) ++
      [agentCompleteEvent a])

/-- Whether an event carries an advisor tag. -/
def isAgentTagged (e : StreamEvent) : Bool := e.agent.isSome

/-- The events of one turn: tags only the turn's own advisor, and the tagged
subsequence is exactly start–chunks–complete (complete absent on a throw). -/
theorem advisorTurn_tagged (o : Oracle) (sel : List AdvisorName) (a : AdvisorName)
    (st : DebateState) :
    (∀ e ∈ (advisorTurn o sel a st).events, e.agent = none ∨ e.agent = some a) ∧
    (advisorTurn o sel a st).events.filter isAgentTagged =
      taggedTurnShape o st.currentRound a := by
  unfold advisorTurn taggedTurnShape
  cases hoc : o.advisorCall st.currentRound a with
  | failure msg chunks =>
    constructor
    · intro e he
      simp only [List.mem_cons, List.mem_append, List.mem_map, List.mem_singleton,
        List.not_mem_nil, or_false] at he
      rcases he with rfl | rfl | ⟨c, _, rfl⟩ | rfl <;>
        simp [thinkingEvent, agentStartEvent, agentResponseEvent, advisorErrorEvent]
    · simp only [List.filter_cons, List.filter_append, List.filter_map]
      simp only [isAgentTagged, thinkingEvent, agentStartEvent, agentResponseEvent,
        advisorErrorEvent, Option.isSome_none, Option.isSome_some, cond_false, cond_true,
        List.nil_append]
      simp
      exact congrArg (List.map (agentResponseEvent a))
        (List.filter_eq_self.mpr fun c _ => rfl)
  | success chunks =>
    have hevs : (if (String.join chunks == "") = true then
        ({ state := st, succ := 0,
           events := thinkingEvent a :: agentStartEvent a ::
             (chunks.map (agentResponseEvent a) ++ [agentCompleteEvent a]),
           prompt := advisorPrompt sel st a } : TurnResult)
        else
        { state := pushResponse st a (String.join chunks), succ := 1,
          events := thinkingEvent a :: agentStartEvent a ::
            (chunks.map (agentResponseEvent a) ++ [agentCompleteEvent a]),
          prompt := advisorPrompt sel st a }).events =
        thinkingEvent a :: agentStartEvent a ::
          (chunks.map (agentResponseEvent a) ++ [agentCompleteEvent a]) := by
      split <;> rfl
    rw [hevs]
    constructor
    · intro e he
      simp only [List.mem_cons, List.mem_append, List.mem_map, List.mem_singleton,
        List.not_mem_nil, or_false] at he
      rcases he with rfl | rfl | ⟨c, _, rfl⟩ | rfl <;>
        simp [thinkingEvent, agentStartEvent, agentResponseEvent, agentCompleteEvent]
    · simp only [List.filter_cons, List.filter_append, List.filter_map]
      simp only [isAgentTagged, thinkingEvent, agentStartEvent, agentResponseEvent,
        agentCompleteEvent, Option.isSome_none, Option.isSome_some, cond_false, cond_true,
        List.nil_append]
      simp
      exact congrArg (List.map (agentResponseEvent a))
        (List.filter_eq_self.mpr fun c _ => rfl)

/-- The events of the advisor loop are exactly the concatenation of the
per-advisor blocks, in selection order. -/
theorem runRoundAux_events_eq_blocks (o : Oracle) (allSel : List AdvisorName) :
    ∀ (l : List AdvisorName) (st : DebateState),
      (runRoundAux o allSel l st).events = ((turnBlocks o allSel l st).map Prod.snd).flatten
  | [], _ => rfl
  | a :: rest, st => by
    unfold runRoundAux turnBlocks
    simp only [List.map_cons, List.flatten_cons]
    rw [runRoundAux_events_eq_blocks o allSel rest]

/-- Every advisor of the selection gets exactly one block, in order. -/
theorem turnBlocks_fst (o : Oracle) (allSel : List AdvisorName) :
    ∀ (l : List AdvisorName) (st : DebateState),
      (turnBlocks o allSel l st).map Prod.fst = l
  | [], _ => rfl
  | a :: rest, st => by
    unfold turnBlocks
    simp only [List.map_cons]
    rw [turnBlocks_fst o allSel rest]

/-- Per-block facts, with the current round constant across the loop. -/
theorem turnBlocks_shape (o : Oracle) (allSel : List AdvisorName) :
    ∀ (l : List AdvisorName) (st : DebateState) (r : Nat), st.currentRound = r →
      ∀ p ∈ turnBlocks o allSel l st,
        (∀ e ∈ p.2, e.agent = none ∨ e.agent = some p.1) ∧
        p.2.filter isAgentTagged = taggedTurnShape o r p.1
  | [], _, _, _, p, hp => absurd hp (List.not_mem_nil p)
  | a :: rest, st, r, hr, p, hp => by
    unfold turnBlocks at hp
    rcases List.mem_cons.mp hp with rfl | hp
    · have h := advisorTurn_tagged o allSel a st
      exact ⟨h.1, hr ▸ h.2⟩
    · exact turnBlocks_shape o allSel rest _ r
        ((advisorTurn_currentRound o allSel a st).trans hr) p hp

/-- C9: within a round, the event stream is the in-order concatenation of
per-advisor blocks; each block tags only its own advisor, and its tagged
events are `agent_start`, the `agent_response` chunks, then `agent_complete`
(absent only when the call threw); a round emits no `consensus_check` (or
`final_answer`) event of its own; and each loop iteration emits the complete
round before anything else of the iteration, so a round's `consensus_check`
events (when the gate runs) follow all of its `agent_complete` events. -/
theorem C9_event_order (o : Oracle) (sel : List AdvisorName) (st : DebateState) :
    ((runDebateRound o sel st).1.events =
      ((turnBlocks o sel sel { st with currentRound := st.currentRound + 1 }).map
        Prod.snd).flatten) ∧
    ((turnBlocks o sel sel { st with currentRound := st.currentRound + 1 }).map
      Prod.fst = sel) ∧
    (∀ p ∈ turnBlocks o sel sel { st with currentRound := st.currentRound + 1 },
      (∀ e ∈ p.2, e.agent = none ∨ e.agent = some p.1) ∧
      p.2.filter isAgentTagged = taggedTurnShape o (st.currentRound + 1) p.1) ∧
    (∀ e ∈ (runDebateRound o sel st).1.events,
      e.type ≠ .consensus_check ∧ e.type ≠ .final_answer) ∧
    (∀ maxR remaining round, ∃ tail,
      (debateLoop o sel maxR (remaining + 1) round st).events =
        roundPreEvents maxR round ++ (runDebateRound o sel st).1.events ++ tail) := by
  refine ⟨?_, ?_, ?_, ?_, ?_⟩
  · rw [runDebateRound_fst]
    exact runRoundAux_events_eq_blocks o sel sel _
  · exact turnBlocks_fst o sel sel _
  · exact turnBlocks_shape o sel sel _ (st.currentRound + 1) rfl
  · intro e he
    rw [runDebateRound_fst] at he
    have h := (runRoundAux_events_shape o sel sel _ e he).1
    rcases h with h | h | h | h | h <;> simp [h]
  · intro maxR remaining round
    cases hres : (runDebateRound o sel st).2 with
    | error e =>
      refine ⟨[], ?_⟩
      rw [debateLoop_succ_error o sel maxR remaining round st e hres]
      simp
    | ok st1 =>
      by_cases hround : 1 ≤ round
      · by_cases hc : (analyzeConsensus o sel st1).1.consensusReached = true
        · refine ⟨gateEvents ++
            [statusEvent "Generating final consensus...",
             moderatorEvent "Consensus reached! Generating final answer...",
             finalAnswerEvent (generateFinalAnswer o st1 (analyzeConsensus o sel st1).1)], ?_⟩
          rw [debateLoop_succ_ok_gate_reached o sel maxR remaining round st st1 hres hround hc]
          simp
        · refine ⟨gateEvents ++
            (debateLoop o sel maxR remaining (round + 1) st1).events, ?_⟩
          rw [debateLoop_succ_ok_gate_notReached o sel maxR remaining round st st1 hres hround
            (by simpa using hc)]
          simp
      · refine ⟨(debateLoop o sel maxR remaining (round + 1) st1).events, ?_⟩
        rw [debateLoop_succ_ok_noGate o sel maxR remaining round st st1 hres (by omega)]

/-- Witness for C9 at a concrete round (the theorem is universally
quantified; this instantiates its block decomposition). -/
theorem C9_event_order_witness :
    (runDebateRound oTest [.naval, .elon] stEmpty).1.events =
      ((turnBlocks oTest [.naval, .elon] [.naval, .elon]
        { stEmpty with currentRound := stEmpty.currentRound + 1 }).map Prod.snd).flatten :=
  (C9_event_order oTest [.naval, .elon] stEmpty).1

/-! ### Claim C7 -/

/-- A thrown advisor call emits its error event within the turn. -/
theorem advisorTurn_failure_event (o : Oracle) (sel : List AdvisorName) (a : AdvisorName)
    (st : DebateState) (msg : String) (chunks : List String)
    (h : o.advisorCall st.currentRound a = .failure msg chunks) :
    advisorErrorEvent a msg ∈ (advisorTurn o sel a st).events := by
  unfold advisorTurn
  rw [h]
  simp

/-- A returned advisor call — even one with empty text — emits no error
event in its turn. -/
theorem advisorTurn_success_no_error (o : Oracle) (sel : List AdvisorName) (a : AdvisorName)
    (st : DebateState) (chunks : List String)
    (h : o.advisorCall st.currentRound a = .success chunks) :
    ∀ e ∈ (advisorTurn o sel a st).events, e.type ≠ .error := by
  intro e he
  unfold advisorTurn at he
  rw [h] at he
  have he' : e ∈ thinkingEvent a :: agentStartEvent a ::
      (chunks.map (agentResponseEvent a) ++ [agentCompleteEvent a]) := by
    by_cases hfull : String.join chunks == "" <;> simp only [hfull] at he <;> simpa using he
  simp only [List.mem_cons, List.mem_append, List.mem_map, List.mem_singleton,
    List.not_mem_nil, or_false] at he'
  rcases he' with rfl | rfl | ⟨c, _, rfl⟩ | rfl <;>
    simp [thinkingEvent, agentStartEvent, agentResponseEvent, agentCompleteEvent]

/-- Each block of a round is the turn of its advisor at some intermediate
state of the same round. -/
theorem turnBlocks_block_events (o : Oracle) (allSel : List AdvisorName) :
    ∀ (l : List AdvisorName) (st : DebateState) (p : AdvisorName × List StreamEvent),
      p ∈ turnBlocks o allSel l st →
      ∃ stX : DebateState, stX.currentRound = st.currentRound ∧
        p.2 = (advisorTurn o allSel p.1 stX).events
  | [], _, p, hp => absurd hp (List.not_mem_nil p)
  | a :: rest, st, p, hp => by
    unfold turnBlocks at hp
    rcases List.mem_cons.mp hp with rfl | hp
    · exact ⟨st, rfl, rfl⟩
    · obtain ⟨stX, h1, h2⟩ := turnBlocks_block_events o allSel rest _ p hp
      exact ⟨stX, h1.trans (advisorTurn_currentRound o allSel a st), h2⟩

/-- C7 (amended): a thrown advisor call is caught — its turn emits an error
event naming the advisor — and the round proceeds to every remaining
advisor's turn (every selected advisor gets a block); a turn that is not a
full success (a throw or an empty response) appends nothing to that
advisor's response list; only fully successful turns count toward the
round's success minimum.  An empty response, however, emits no error event:
its turn ends with a normal `agent_complete`. -/
theorem C7_turn_failures (o : Oracle) (sel : List AdvisorName) (st : DebateState) :
    ((turnBlocks o sel sel { st with currentRound := st.currentRound + 1 }).map
      Prod.fst = sel) ∧
    (∀ p ∈ turnBlocks o sel sel { st with currentRound := st.currentRound + 1 },
      (∀ msg chunks, o.advisorCall (st.currentRound + 1) p.1 = .failure msg chunks →
        advisorErrorEvent p.1 msg ∈ p.2) ∧
      (∀ chunks, o.advisorCall (st.currentRound + 1) p.1 = .success chunks →
        ∀ e ∈ p.2, e.type ≠ .error)) ∧
    (∀ a : AdvisorName, isFullSuccess (o.advisorCall (st.currentRound + 1) a) = false →
      (runDebateRound o sel st).1.state.agentResponses a = st.agentResponses a) ∧
    ((runDebateRound o sel st).1.succ =
      sel.countP fun a => isFullSuccess (o.advisorCall (st.currentRound + 1) a)) := by
  refine ⟨turnBlocks_fst o sel sel _, ?_, ?_, ?_⟩
  · intro p hp
    obtain ⟨stX, hcr, hev⟩ := turnBlocks_block_events o sel sel _ p hp
    constructor
    · intro msg chunks hc
      rw [hev]
      exact advisorTurn_failure_event o sel p.1 stX msg chunks (by rw [hcr]; exact hc)
    · intro chunks hc
      rw [hev]
      exact advisorTurn_success_no_error o sel p.1 stX chunks (by rw [hcr]; exact hc)
  · intro a ha
    rw [runDebateRound_fst]
    exact runRoundAux_responses_no_success o sel sel _ a ha
  · rw [runDebateRound_fst]
    exact runRoundAux_succ o sel sel _

/-- Witness for C7 at a concrete round with one throwing advisor, one empty
responder, and one successful responder. -/
def oC7w : Oracle :=
  { advisorCall := fun _ a =>
      match a with
      | .naval => .failure "boom" []
      | .elon => .success []
      | _ => .success ["C"]
    moderatorReply := fun _ => ""
    finalReply := "F"
    searchOutcome := none }

/-- Witness for C7: instantiates the amended theorem at `oC7w` and checks
its failure clause on the throwing advisor. -/
theorem C7_turn_failures_witness :
    oC7w.advisorCall (stEmpty.currentRound + 1) AdvisorName.naval = .failure "boom" [] ∧
    ((turnBlocks oC7w [.naval, .elon, .larry] [.naval, .elon, .larry]
      { stEmpty with currentRound := stEmpty.currentRound + 1 }).map
        Prod.fst = [.naval, .elon, .larry]) ∧
    ((runDebateRound oC7w [.naval, .elon, .larry] stEmpty).1.succ =
      ([AdvisorName.naval, .elon, .larry].countP fun a =>
        isFullSuccess (oC7w.advisorCall (stEmpty.currentRound + 1) a))) :=
  ⟨rfl, (C7_turn_failures oC7w [.naval, .elon, .larry] stEmpty).1,
    (C7_turn_failures oC7w [.naval, .elon, .larry] stEmpty).2.2.2⟩

/-- Counterexample to C7 as stated: an advisor whose call returns an *empty*
response triggers no error event at all — the round's event stream contains
zero error events although the claim requires one for the empty-response
advisor; the turn ends with a normal `agent_complete`, nothing is appended,
and the round continues and succeeds on the other two advisors. -/
theorem C7_empty_response_counterexample :
    oC7w.advisorCall 1 AdvisorName.elon = .success [] ∧
    ((runDebateRound oC7w [.elon, .larry, .alex] stEmpty).1.events.countP
      fun e => e.type == .error) = 0 ∧
    ((runDebateRound oC7w [.elon, .larry, .alex] stEmpty).1.events.countP
      fun e => e.type == .agent_complete && e.agent == some AdvisorName.elon) = 1 ∧
    (runDebateRound oC7w [.elon, .larry, .alex] stEmpty).1.state.agentResponses .elon = [] ∧
    (runDebateRound oC7w [.elon, .larry, .alex] stEmpty).2 =
      .ok (runDebateRound oC7w [.elon, .larry, .alex] stEmpty).1.state :=
  ⟨rfl, by decide, by decide, by decide, rfl⟩

/-! ### Claim C2: the fatal insufficient-responses path -/

/-- Number of fully successful advisor calls in a given round — what the
round executor's `successfulResponses` counter reaches. -/
def roundSuccesses (o : Oracle) (sel : List AdvisorName) (r : Nat) : Nat :=
  sel.countP fun a => isFullSuccess (o.advisorCall r a)

/-- The success counter of a round only depends on the oracle at the round's
number. -/
theorem runDebateRound_succ_eq (o : Oracle) (sel : List AdvisorName) (st : DebateState) :
    (runDebateRound o sel st).1.succ = roundSuccesses o sel (st.currentRound + 1) := by
  rw [runDebateRound_fst, runRoundAux_succ]
  rfl

/-- If any executed round has fewer than 2 successes, the loop's outcome is
the insufficient-responses error of the first such round. -/
theorem debateLoop_low_success_error (o : Oracle) (sel : List AdvisorName) (maxR : Nat) :
    ∀ (remaining round : Nat) (st : DebateState), st.currentRound = round →
      ∀ r ∈ (debateLoop o sel maxR remaining round st).rounds,
        roundSuccesses o sel r < 2 →
        (debateLoop o sel maxR remaining round st).outcome =
          .error (insufficientMsg (roundSuccesses o sel r)) := by
  intro remaining
  induction remaining with
  | zero =>
    intro round st _ r hr
    rw [debateLoop_base] at hr
    simp at hr
  | succ n ih =>
    intro round st hcr r hr hlow
    have hsucc : (runRoundAux o sel sel { st with currentRound := st.currentRound + 1 }).succ =
        roundSuccesses o sel (round + 1) := by
      have := runDebateRound_succ_eq o sel st
      rw [runDebateRound_fst] at this
      rw [this, hcr]
    by_cases hl : (runRoundAux o sel sel { st with currentRound := st.currentRound + 1 }).succ < 2
    · have herr := runDebateRound_snd_error o sel st hl
      rw [debateLoop_succ_error o sel maxR n round st _ herr] at hr ⊢
      simp at hr
      subst hr
      rw [hsucc]
    · have hok := runDebateRound_snd_ok o sel st (by omega)
      have hcr1 : (runRoundAux o sel sel
          { st with currentRound := st.currentRound + 1 }).state.currentRound = round + 1 := by
        rw [runRoundAux_currentRound, hcr]
      have hne : r ≠ round + 1 := by
        intro hreq
        rw [hreq] at hlow
        rw [hsucc] at hl
        omega
      by_cases hround : 1 ≤ round
      · by_cases hc : (analyzeConsensus o sel
            (runRoundAux o sel sel { st with currentRound := st.currentRound + 1 }).state).1.consensusReached = true
        · rw [debateLoop_succ_ok_gate_reached o sel maxR n round st _ hok hround hc] at hr
          simp at hr
          exact absurd hr hne
        · rw [debateLoop_succ_ok_gate_notReached o sel maxR n round st _ hok hround
            (by simpa using hc)] at hr ⊢
          simp only [List.mem_cons] at hr
          rcases hr with hr | hr
          · exact absurd hr hne
          · exact ih (round + 1) _ hcr1 r hr hlow
      · rw [debateLoop_succ_ok_noGate o sel maxR n round st _ hok (by omega)] at hr ⊢
        simp only [List.mem_cons] at hr
        rcases hr with hr | hr
        · exact absurd hr hne
        · exact ih (round + 1) _ hcr1 r hr hlow

/-- On the error path the loop has emitted only advisor-failure error events
and no `final_answer` event. -/
theorem debateLoop_error_facts (o : Oracle) (sel : List AdvisorName) (maxR : Nat) :
    ∀ (remaining round : Nat) (st : DebateState),
      (∀ e ∈ (debateLoop o sel maxR remaining round st).events, e.type = .error →
        ∃ a m, e = advisorErrorEvent a m) ∧
      (∀ msg, (debateLoop o sel maxR remaining round st).outcome = .error msg →
        ((debateLoop o sel maxR remaining round st).events.countP
          fun e => e.type == .final_answer) = 0) := by
  intro remaining
  induction remaining with
  | zero =>
    intro round st
    rw [debateLoop_base]
    constructor
    · intro e he ht
      simp only [List.mem_cons, List.not_mem_nil, or_false, List.mem_singleton] at he
      rcases he with rfl | rfl <;> simp [moderatorEvent, finalAnswerEvent] at ht
    · intro msg h
      simp at h
  | succ n ih =>
    intro round st
    have hpre : ∀ e ∈ roundPreEvents maxR round, e.type ≠ .error ∧ e.type ≠ .final_answer := by
      intro e he
      simp only [roundPreEvents, List.mem_cons, List.not_mem_nil, or_false,
        List.mem_singleton] at he
      rcases he with rfl | rfl <;> simp [statusEvent, moderatorEvent]
    have hgate : ∀ e ∈ gateEvents, e.type ≠ .error ∧ e.type ≠ .final_answer := by
      intro e he
      simp only [gateEvents, List.mem_cons, List.not_mem_nil, or_false,
        List.mem_singleton] at he
      rcases he with rfl | rfl <;> simp [statusEvent, consensusCheckEvent]
    have hround_events : ∀ e ∈ (runDebateRound o sel st).1.events,
        (e.type = .error → ∃ a m, e = advisorErrorEvent a m) ∧ e.type ≠ .final_answer := by
      intro e he
      rw [runDebateRound_fst] at he
      have h := runRoundAux_events_shape o sel sel _ e he
      refine ⟨fun ht => ?_, ?_⟩
      · obtain ⟨a, m, _, hm⟩ := h.2 ht
        exact ⟨a, m, hm⟩
      · rcases h.1 with h1 | h1 | h1 | h1 | h1 <;> simp [h1]
    have hroundP : ((runDebateRound o sel st).1.events.countP
        fun e => e.type == .final_answer) = 0 := by
      rw [runDebateRound_fst]
      exact runRoundAux_countP_zero o sel sel _ _ (Or.inl rfl)
    have hpreP : ((roundPreEvents maxR round).countP fun e => e.type == .final_answer) = 0 := by
      rw [List.countP_eq_zero]
      intro e he
      have := (hpre e he).2
      simp [this]
    cases hres : (runDebateRound o sel st).2 with
    | error e =>
      rw [debateLoop_succ_error o sel maxR n round st e hres]
      constructor
      · intro ev hev ht
        simp only [List.mem_append] at hev
        rcases hev with hev | hev
        · exact absurd ht (hpre ev hev).1
        · exact (hround_events ev hev).1 ht
      · intro msg _
        simp only [List.countP_append, hpreP, hroundP]
    | ok st1 =>
      by_cases hround : 1 ≤ round
      · by_cases hc : (analyzeConsensus o sel st1).1.consensusReached = true
        · rw [debateLoop_succ_ok_gate_reached o sel maxR n round st st1 hres hround hc]
          constructor
          · intro ev hev ht
            simp only [List.mem_append, List.mem_cons, List.not_mem_nil, or_false,
              List.mem_singleton] at hev
            rcases hev with ((hev | hev) | hev) | (rfl | rfl | rfl)
            · exact absurd ht (hpre ev hev).1
            · exact (hround_events ev hev).1 ht
            · exact absurd ht (hgate ev hev).1
            · simp [statusEvent] at ht
            · simp [moderatorEvent] at ht
            · simp [finalAnswerEvent] at ht
          · intro msg h
            simp at h
        · rw [debateLoop_succ_ok_gate_notReached o sel maxR n round st st1 hres hround
            (by simpa using hc)]
          constructor
          · intro ev hev ht
            simp only [List.mem_append] at hev
            rcases hev with ((hev | hev) | hev) | hev
            · exact absurd ht (hpre ev hev).1
            · exact (hround_events ev hev).1 ht
            · exact absurd ht (hgate ev hev).1
            · exact ((ih (round + 1) st1).1) ev hev ht
          · intro msg h
            have hgateP : (gateEvents.countP fun e => e.type == .final_answer) = 0 := by
              rw [List.countP_eq_zero]
              intro e he
              have := (hgate e he).2
              simp [this]
            simp only [List.countP_append, hpreP, hroundP, hgateP,
              (ih (round + 1) st1).2 msg h]
      · rw [debateLoop_succ_ok_noGate o sel maxR n round st st1 hres (by omega)]
        constructor
        · intro ev hev ht
          simp only [List.mem_append] at hev
          rcases hev with (hev | hev) | hev
          · exact absurd ht (hpre ev hev).1
          · exact (hround_events ev hev).1 ht
          · exact ((ih (round + 1) st1).1) ev hev ht
        · intro msg h
          simp only [List.countP_append, hpreP, hroundP, (ih (round + 1) st1).2 msg h]

/-- The research call only emits `system` / `research_start` /
`research_complete` events. -/
theorem performResearch_events_shape (o : Oracle) (cfg : Config) (q : String) :
    ∀ e ∈ (performResearch o cfg q).2,
      e.type = .system ∨ e.type = .research_start ∨ e.type = .research_complete := by
  intro e he
  unfold performResearch at he
  split at he
  · simp only [List.mem_singleton] at he
    subst he
    exact Or.inl rfl
  · split at he
    · simp at he
    · split at he <;>
      · simp only [List.mem_cons, List.not_mem_nil, or_false, List.mem_singleton] at he
        rcases he with rfl | rfl
        · exact Or.inr (Or.inl rfl)
        · exact Or.inr (Or.inr rfl)

/-- The research phase emits no `error` and no `final_answer` event, and
leaves `currentRound` untouched. -/
theorem researchPhase_shape (o : Oracle) (cfg : Config) (q : String) (st : DebateState) :
    (∀ e ∈ (researchPhase o cfg q st).2, e.type ≠ .error ∧ e.type ≠ .final_answer) ∧
    (researchPhase o cfg q st).1.currentRound = st.currentRound := by
  unfold researchPhase
  dsimp only
  split
  · split
    · constructor
      · intro e he
        simp only [List.mem_cons, List.mem_append, List.mem_singleton,
          List.not_mem_nil, or_false] at he
        rcases he with (rfl | he) | rfl
        · simp [statusEvent]
        · rcases performResearch_events_shape o cfg q e he with h | h | h <;> simp [h]
        · constructor <;> intro hx <;> simp at hx
      · rfl
    · constructor
      · intro e he
        simp only [List.mem_cons] at he
        rcases he with rfl | he
        · simp [statusEvent]
        · rcases performResearch_events_shape o cfg q e he with h | h | h <;> simp [h]
      · rfl
  · exact ⟨fun e he => absurd he (List.not_mem_nil e), rfl⟩

/-- Unfolding equation of `runCouncilDebate`. -/
theorem runCouncilDebate_eq (o : Oracle) (cfg : Config) (q : String) :
    runCouncilDebate o cfg q =
      { events := ⟨.cost_estimate, none, none⟩ ::
          (researchPhase o cfg q (createInitialState cfg q)).2 ++
          (debateLoop o cfg.selectedAdvisors (modeRounds cfg.mode) (modeRounds cfg.mode) 0
            (researchPhase o cfg q (createInitialState cfg q)).1).events,
        rounds := (debateLoop o cfg.selectedAdvisors (modeRounds cfg.mode) (modeRounds cfg.mode) 0
            (researchPhase o cfg q (createInitialState cfg q)).1).rounds,
        consensusChecks := (debateLoop o cfg.selectedAdvisors (modeRounds cfg.mode)
            (modeRounds cfg.mode) 0
            (researchPhase o cfg q (createInitialState cfg q)).1).consensusChecks,
        outcome := (debateLoop o cfg.selectedAdvisors (modeRounds cfg.mode) (modeRounds cfg.mode) 0
            (researchPhase o cfg q (createInitialState cfg q)).1).outcome } := rfl

/-- The route's catch block: on a thrown debate, the written stream is the
debate's events followed by exactly one safe error event. -/
theorem councilPOST_error (o : Oracle) (cfg : Config) (dev : Bool) (q : String) (msg : String)
    (h : (runCouncilDebate o cfg q).outcome = .error msg) :
    councilPOST o cfg dev q = (runCouncilDebate o cfg q).events ++ [fatalErrorEvent dev msg] := by
  simp only [councilPOST, h]

/-- An advisor-failure error event is never the route's fatal
insufficient-responses event: their contents differ already at the first
character (a lowercase advisor id versus "Insufficient…" in development
mode or one of the capitalized production messages). -/
theorem advisorError_ne_fatal (dev : Bool) (a : AdvisorName) (m : String) (n : Nat)
    (hn : n < 2) : advisorErrorEvent a m ≠ fatalErrorEvent dev (insufficientMsg n) := by
  intro h
  have hc : some (a.idString ++ " failed to respond: " ++ m) =
      some (getSafeErrorMessage dev (insufficientMsg n)) := congrArg StreamEvent.content h
  have hs : a.idString ++ " failed to respond: " ++ m =
      getSafeErrorMessage dev (insufficientMsg n) := Option.some.inj hc
  have h1 : ((a.idString ++ " failed to respond: " ++ m).data.head?.map Char.isLower) =
      some true := by
    cases a <;> rfl
  have h2 : (((getSafeErrorMessage dev (insufficientMsg n)).data.head?).map Char.isLower) =
      some false := by
    interval_cases n <;> cases dev <;> rfl
  rw [hs] at h1
  rw [h1] at h2
  simp at h2

/-- Every error-typed event of the debate's own stream is an advisor-failure
event (the fatal insufficient-responses error is appended only by the API
route's catch block). -/
theorem runCouncilDebate_error_events (o : Oracle) (cfg : Config) (q : String) :
    ∀ e ∈ (runCouncilDebate o cfg q).events, e.type = .error →
      ∃ a m, e = advisorErrorEvent a m := by
  rw [runCouncilDebate_eq]
  intro e he ht
  simp only [List.mem_cons, List.mem_append] at he
  rcases he with (rfl | he) | he
  · simp at ht
  · exact absurd ht ((researchPhase_shape o cfg q _).1 e he).1
  · exact (debateLoop_error_facts o cfg.selectedAdvisors (modeRounds cfg.mode)
      (modeRounds cfg.mode) 0 _).1 e he ht

/-- C2: if in any executed round fewer than 2 advisor calls fully succeed,
the debate aborts fatally: its outcome is the propagated
insufficient-responses error, the stream written by the API route contains
no `final_answer` event, and it contains exactly one occurrence of the safe
error event about that failure (the one appended by the route's catch
block).  The error outcome carries no state, so no `finalAnswer` is ever
set. -/
theorem C2_insufficient_round_aborts (o : Oracle) (cfg : Config) (dev : Bool) (q : String)
    (r : Nat) (hr : r ∈ (runCouncilDebate o cfg q).rounds)
    (hlow : roundSuccesses o cfg.selectedAdvisors r < 2) :
    (runCouncilDebate o cfg q).outcome =
      .error (insufficientMsg (roundSuccesses o cfg.selectedAdvisors r)) ∧
    ((councilPOST o cfg dev q).countP fun e => e.type == .final_answer) = 0 ∧
    ((councilPOST o cfg dev q).countP
      fun e => e == fatalErrorEvent dev
        (insufficientMsg (roundSuccesses o cfg.selectedAdvisors r))) = 1 := by
  have hcr0 : (researchPhase o cfg q (createInitialState cfg q)).1.currentRound = 0 :=
    (researchPhase_shape o cfg q _).2
  have hrL : r ∈ (debateLoop o cfg.selectedAdvisors (modeRounds cfg.mode) (modeRounds cfg.mode) 0
      (researchPhase o cfg q (createInitialState cfg q)).1).rounds := by
    rw [runCouncilDebate_eq] at hr
    exact hr
  have houtL := debateLoop_low_success_error o cfg.selectedAdvisors (modeRounds cfg.mode)
      (modeRounds cfg.mode) 0 _ hcr0 r hrL hlow
  have hout : (runCouncilDebate o cfg q).outcome =
      .error (insufficientMsg (roundSuccesses o cfg.selectedAdvisors r)) := by
    rw [runCouncilDebate_eq]
    exact houtL
  have hrp : ((researchPhase o cfg q (createInitialState cfg q)).2.countP
      fun e => e.type == .final_answer) = 0 := by
    rw [List.countP_eq_zero]
    intro e he
    have := ((researchPhase_shape o cfg q _).1 e he).2
    simp [this]
  have hloop0 := (debateLoop_error_facts o cfg.selectedAdvisors (modeRounds cfg.mode)
      (modeRounds cfg.mode) 0 (researchPhase o cfg q (createInitialState cfg q)).1).2 _ houtL
  have hdeb0 : ((runCouncilDebate o cfg q).events.countP
      fun e => e.type == .final_answer) = 0 := by
    rw [runCouncilDebate_eq]
    simp only [List.countP_cons, List.countP_append, hrp, hloop0]
    rfl
  refine ⟨hout, ?_, ?_⟩
  · rw [councilPOST_error o cfg dev q _ hout, List.countP_append, hdeb0]
    rfl
  · rw [councilPOST_error o cfg dev q _ hout, List.countP_append]
    have h1 : ((runCouncilDebate o cfg q).events.countP
        fun e => e == fatalErrorEvent dev
          (insufficientMsg (roundSuccesses o cfg.selectedAdvisors r))) = 0 := by
      rw [List.countP_eq_zero]
      intro e he
      simp only [beq_iff_eq]
      intro heq
      have ht : e.type = .error := by rw [heq]; rfl
      obtain ⟨a, m, hm⟩ := runCouncilDebate_error_events o cfg q e he ht
      rw [hm] at heq
      exact advisorError_ne_fatal dev a m _ hlow heq
    rw [h1]
    simp

/-- A configuration and oracle on which every advisor call throws. -/
def oAllFail : Oracle :=
  { advisorCall := fun _ _ => .failure "boom" []
    moderatorReply := fun _ => ""
    finalReply := "F"
    searchOutcome := none }

/-- A quick two-advisor configuration for the C2 witness. -/
def cfgPair : Config := ⟨.quick, [.naval, .elon], false, false⟩

/-- Witness for C2: with both advisors throwing in round 1, the debate
aborts with the insufficient-responses error; the route's stream has no
final answer and exactly one fatal error event. -/
theorem C2_insufficient_round_aborts_witness :
    (1 ∈ (runCouncilDebate oAllFail cfgPair "Q").rounds ∧
     roundSuccesses oAllFail cfgPair.selectedAdvisors 1 < 2) ∧
    ((runCouncilDebate oAllFail cfgPair "Q").outcome =
      .error (insufficientMsg (roundSuccesses oAllFail cfgPair.selectedAdvisors 1)) ∧
     ((councilPOST oAllFail cfgPair true "Q").countP fun e => e.type == .final_answer) = 0 ∧
     ((councilPOST oAllFail cfgPair true "Q").countP
       fun e => e == fatalErrorEvent true
         (insufficientMsg (roundSuccesses oAllFail cfgPair.selectedAdvisors 1))) = 1) :=
  ⟨⟨by decide, by decide⟩,
    C2_insufficient_round_aborts oAllFail cfgPair true "Q" 1 (by decide) (by decide)⟩

end Council
